import Mathlib

/-!
Verification of the training orchestration engine of
`orttraining/orttraining/models/runner/training_runner.cc` (class
`onnxruntime::training::TrainingRunner`).

The shallow embedding below translates the runner's data model and the control
flow of its member functions into Lean.  External collaborators (the execution
engine `session_.Run`, the data loader, the pipeline scheduler, filesystem and
logging) are modelled at their interface boundary: opaque values are carried as
parameters, `session_.Run` is treated as a total call whose fetched
"all gradients finite" bit is supplied by an oracle, and `printf`/profiling
have no observable effect on the modelled state.  Machine counters
(`size_t step_`, ...) are modelled as `Nat`; the runner never lets them wrap.
-/

namespace TrainingRunnerModel

/-- The `SessionMode` enumeration used by `PrepareFeedNamesAndFeeds` /
`PrepareFetchNamesAndFetches`. -/
inductive SessionMode
  | ModelUpdateStep
  | GradientAccumulateStep
  | EvaluateStep
deriving DecidableEq

/-- A value bound to a feed name.  Data-loader tensors are opaque (`tensor`),
loss-scale and learning-rate feeds are float scalars (modelled exactly as
rationals), pipeline event ids are int64 scalars. -/
inductive FeedValue
  | tensor (i : Nat)
  | scalarF (x : ℚ)
  | scalarI (i : Int)
deriving DecidableEq

/-- Modelled from the spec: the `LossScaler` class is not part of the provided
sources (only its call sites are).  Per spec §4.3 it holds the loss-scale input
name, a dynamic/static flag, the current scale (float64, modelled exactly as a
rational), the window of consecutive non-overflow steps, and the policy
constants (floor, ceiling, growth interval). -/
structure LossScaler where
  input_name : String
  is_dynamic : Bool
  current_scale : ℚ
  window_without_overflow : Nat
  min_loss_scale : ℚ
  max_loss_scale : ℚ
  up_scale_window : Nat
deriving DecidableEq

/-- Modelled from the spec: `GetLossScale()` returns the current scale (in
static mode `current_scale` permanently holds the fixed value). -/
def LossScaler.GetLossScale (s : LossScaler) : ℚ := s.current_scale

/-- Modelled from the spec: `UpdateLossScale(all_finite)` — on overflow halve
(never below the floor) and reset the window; otherwise grow the window and,
once it reaches the growth interval, double (never above the ceiling) and
reset.  Static mode disables all adjustment. -/
def LossScaler.UpdateLossScale (s : LossScaler) (all_finite : Bool) : LossScaler :=
  if s.is_dynamic = false then s
  else if all_finite = false then
    { s with current_scale := max s.min_loss_scale (s.current_scale / 2),
             window_without_overflow := 0 }
  else if s.up_scale_window ≤ s.window_without_overflow + 1 then
    { s with current_scale := min s.max_loss_scale (s.current_scale * 2),
             window_without_overflow := 0 }
  else
    { s with window_without_overflow := s.window_without_overflow + 1 }

/-- The `pipeline_context_` member: pipeline stage/micro-batch dimensions, the
allowed feed/fetch name lists of this stage, and the event tensor names (empty
string means "not present", as in the source). -/
structure PipelineContext where
  pipeline_stage_id : Nat
  num_pipeline_batches : Nat
  feed_names : List String
  fetch_names : List String
  forward_waited_event_name : String
  forward_waited_event_after_recv_name : String
  forward_recorded_event_before_send_name : String
  forward_recorded_event_name : String
  backward_waited_event_name : String
  backward_waited_event_after_recv_name : String
  backward_recorded_event_before_send_name : String
  backward_recorded_event_name : String
  forward_wait_output_name : String
  forward_record_output_name : String
  backward_wait_output_name : String
  backward_record_output_name : String
deriving DecidableEq

/-- The external `pipeline_schedule_` (class `PipelineScheduler`, outside the
provided sources): a bundle of pure functions from (stage id, micro-batch slot)
to an event id, one per query used by `PrepareFeedNamesAndFeeds`. -/
structure PipelineScheduler where
  GetForwardWaitedEventId : Nat → Nat → Int
  GetForwardWaitedEventIdAfterRecv : Nat → Nat → Int
  GetForwardRecordedEventIdBeforeSend : Nat → Nat → Int
  GetForwardRecordedEventId : Nat → Nat → Int
  GetBackwardWaitedEventId : Nat → Nat → Int
  GetBackwardWaitedEventIdAfterRecv : Nat → Nat → Int
  GetBackwardRecordedEventIdBeforeSend : Nat → Nat → Int
  GetBackwardRecordedEventId : Nat → Nat → Int

/-- The fields of `TrainingRunner::Parameters` consumed by the modelled code.
Callbacks are modelled by presence flags (invoking them has no effect on the
runner's state). -/
structure Parameters where
  model_path : String
  weights_to_train : List String
  weights_not_to_train : List String
  training_optimizer_name : String
  deepspeed_zero_stage : Nat
  use_nccl : Bool
  num_train_steps : Nat
  gradient_accumulation_steps : Nat
  pipeline_parallel_size : Nat
  batch_size : Nat
  eval_batch_size : Nat
  fetch_names : List String
  lr_feed_name : String
  use_mixed_precision : Bool
  use_adasum : Bool
  is_perf_test : Bool
  display_loss_steps : Nat
  do_eval : Bool
  evaluation_period : Nat
  skip_evaluation : Bool
  shuffle_data : Bool
  error_function_present : Bool
  post_evaluation_callback_present : Bool
deriving DecidableEq

/-- The entries of `opt_graph_outputs_` that the runner looks up
(`OptimizerOutputKey::{GradientAllIsFinite, DeltaAllIsFinite,
GradientAccumulation}`); `none` models an absent key. -/
structure OptGraphOutputs where
  gradientAllIsFinite : Option String
  deltaAllIsFinite : Option String
  gradientAccumulation : Option String
deriving DecidableEq

/-- The immutable configuration of a constructed runner: `params_`,
`pipeline_context_` and `opt_graph_outputs_`. -/
structure RunnerConfig where
  params : Parameters
  ctx : PipelineContext
  opt : OptGraphOutputs
deriving DecidableEq

/-- The checks performed by the `TrainingRunner` constructor (the `ORT_ENFORCE`
calls at training_runner.cc:65-74), in source order.  An `ORT_ENFORCE` failure
throws, i.e. construction fails eagerly. -/
def TrainingRunnerConstructorChecks (p : Parameters) : Except String Unit := do
  if p.model_path = "" then throw "model_path must not be empty" else
  if p.weights_to_train ≠ [] ∧ p.weights_not_to_train ≠ [] then
    throw "weights_to_train and weights_not_to_train are mutually exclusive" else
  if p.training_optimizer_name = "" then throw "training_optimizer_name must not be empty" else
  if p.deepspeed_zero_stage ≠ 0 ∧ p.use_nccl = false then
    throw "DeepSpeed ZeRO partitioning is only supported with NCCL distributed training." else
  if p.num_train_steps % p.gradient_accumulation_steps ≠ 0 then
    throw "Number of training steps must be a multiple of number of gradient accumulation step." else
  pure ()

/-- One of the eight event-feed blocks of `PrepareFeedNamesAndFeeds`
(training_runner.cc:402-536): if the configured event tensor name is non-empty,
enforce that a pipeline exists, then feed the scheduled event id — or the
sentinel `-1` when evaluating. -/
def eventFeedBlock (pipeline_parallel_size : Nat) (name : String) (isEval : Bool)
    (schedId : Int) : Except String (List (String × FeedValue)) :=
  if name = "" then .ok []
  else if pipeline_parallel_size ≤ 1 then
    .error "Internal event name should be empty if there is no pipeline."
  else .ok [(name, .scalarI (if isEval then -1 else schedId))]

/-- `TrainingRunner::PrepareFeedNamesAndFeeds` (training_runner.cc:350-539).
The data loader supplies `data_feed_names`/`data_feeds`; the learning-rate
scheduler is an optional function of the step.  The parallel
`feed_names`/`feeds` vectors of the source are modelled as one list of pairs
(the source pushes onto both in lockstep). -/
def PrepareFeedNamesAndFeeds (cfg : RunnerConfig) (loss_scaler : Option LossScaler)
    (sched : PipelineScheduler) (mode : SessionMode)
    (data_feed_names : List String) (data_feeds : List FeedValue)
    (lr_scheduler : Option (Nat → ℚ)) (step : Nat) :
    Except String (List (String × FeedValue)) := do
  let allowed := cfg.ctx.feed_names
  let pps := cfg.params.pipeline_parallel_size
  -- Pick up feeds from data loader.
  let dataPart := (data_feed_names.zip data_feeds).filter
    (fun nv => pps = 1 ∨ nv.1 ∈ allowed)
  -- Pick up feed from loss scaling.
  let scalePart : List (String × FeedValue) :=
    match loss_scaler with
    | none => []
    | some s =>
      if pps = 1 ∨ s.input_name ∈ allowed then
        [(s.input_name, .scalarF (if mode = .EvaluateStep then 1 else s.GetLossScale))]
      else []
  -- Pick up feed from learning rate schedule.
  let lrPart : List (String × FeedValue) :=
    if pps = 1 ∨ cfg.params.lr_feed_name ∈ allowed then
      [(cfg.params.lr_feed_name,
        .scalarF (match lr_scheduler with | some f => f (step + 1) | none => 0))]
    else []
  let isEval := mode = SessionMode.EvaluateStep
  let stage := cfg.ctx.pipeline_stage_id
  let slot := step % cfg.ctx.num_pipeline_batches
  let e1 ← eventFeedBlock pps cfg.ctx.forward_waited_event_name isEval
    (sched.GetForwardWaitedEventId stage slot)
  let e2 ← eventFeedBlock pps cfg.ctx.forward_waited_event_after_recv_name isEval
    (sched.GetForwardWaitedEventIdAfterRecv stage slot)
  let e3 ← eventFeedBlock pps cfg.ctx.forward_recorded_event_before_send_name isEval
    (sched.GetForwardRecordedEventIdBeforeSend stage slot)
  let e4 ← eventFeedBlock pps cfg.ctx.forward_recorded_event_name isEval
    (sched.GetForwardRecordedEventId stage slot)
  let e5 ← eventFeedBlock pps cfg.ctx.backward_waited_event_name isEval
    (sched.GetBackwardWaitedEventId stage slot)
  let e6 ← eventFeedBlock pps cfg.ctx.backward_waited_event_after_recv_name isEval
    (sched.GetBackwardWaitedEventIdAfterRecv stage slot)
  let e7 ← eventFeedBlock pps cfg.ctx.backward_recorded_event_before_send_name isEval
    (sched.GetBackwardRecordedEventIdBeforeSend stage slot)
  let e8 ← eventFeedBlock pps cfg.ctx.backward_recorded_event_name isEval
    (sched.GetBackwardRecordedEventId stage slot)
  .ok (dataPart ++ scalePart ++ lrPart ++ e1 ++ e2 ++ e3 ++ e4 ++ e5 ++ e6 ++ e7 ++ e8)

/-- The mode-dependent part of `TrainingRunner::PrepareFetchNamesAndFetches`
(training_runner.cc:550-624), before the empty-list fallback. -/
def PrepareFetchNamesCore (cfg : RunnerConfig) (mode : SessionMode) :
    Except String (List String) :=
  let allowed_fetch_names := cfg.ctx.fetch_names
  match mode with
  | .ModelUpdateStep =>
    if 1 < cfg.params.pipeline_parallel_size then
      -- If pipeline is used, filter out fetches which are not in this stage.
      .ok (cfg.params.fetch_names.filter (fun name => name ∈ allowed_fetch_names))
    else
      -- No pipeline.
      if cfg.params.use_mixed_precision then
        match cfg.opt.gradientAllIsFinite with
        | none => .error "Gradient norm's IsFinite output is missing in the optimizer output"
        | some gaf =>
          if cfg.params.use_adasum then
            match cfg.opt.deltaAllIsFinite with
            | none => .error "Adasum delta's IsFinite output is missing in the optimizer output"
            | some daf => .ok (cfg.params.fetch_names ++ [gaf, daf])
          else .ok (cfg.params.fetch_names ++ [gaf])
      else .ok cfg.params.fetch_names
  | .GradientAccumulateStep =>
    let accPart : Except String (List String) :=
      if 1 < cfg.params.gradient_accumulation_steps then
        match cfg.opt.gradientAccumulation with
        | none => .error "Gradient accumulation output is missing in the optimizer output"
        | some g => .ok [g]
      else .ok []
    match accPart with
    | .error e => .error e
    | .ok acc =>
      -- Always execute event operators to avoid deadlock if pipeline is used.
      let evs :=
        if cfg.params.pipeline_parallel_size ≠ 0 then
          (if cfg.ctx.forward_wait_output_name ≠ "" then [cfg.ctx.forward_wait_output_name] else []) ++
          (if cfg.ctx.forward_record_output_name ≠ "" then [cfg.ctx.forward_record_output_name] else []) ++
          (if cfg.ctx.backward_wait_output_name ≠ "" then [cfg.ctx.backward_wait_output_name] else []) ++
          (if cfg.ctx.backward_record_output_name ≠ "" then [cfg.ctx.backward_record_output_name] else [])
        else []
      .ok (acc ++ evs)
  | .EvaluateStep =>
    if 1 < cfg.params.pipeline_parallel_size then
      .ok (cfg.params.fetch_names.filter (fun name => name ∈ allowed_fetch_names))
    else
      .ok cfg.params.fetch_names

/-- `TrainingRunner::PrepareFetchNamesAndFetches` (training_runner.cc:541-633):
the mode-dependent fetch list, then the fallback — if there is nothing to
fetch, fetch all model outputs (`pipeline_context_.fetch_names`). -/
def PrepareFetchNamesAndFetches (cfg : RunnerConfig) (mode : SessionMode) :
    Except String (List String) := do
  let fetch_names ← PrepareFetchNamesCore cfg mode
  .ok (if fetch_names = [] then cfg.ctx.fetch_names else fetch_names)

/-! ### Checkpoint property serialization

`SaveCheckpointProperties` stores the run counters through `std::to_string`
(decimal) and `LoadCheckpointProperties` parses them back with
`std::istringstream` (`FromString`, which also demands `eof`).  We model the
decimal printing/parsing concretely on character lists. -/

/-- The decimal character of a digit (`'0' + d`). -/
def digitChar (d : Nat) : Char := Char.ofNat (48 + d)

/-- The decimal character list `std::to_string` produces for a `size_t`. -/
def natToChars (n : Nat) : List Char :=
  (if n = 0 then [0] else (Nat.digits 10 n).reverse).map digitChar

/-- `std::to_string` on an unsigned integer. -/
def natToString (n : Nat) : String := ⟨natToChars n⟩

/-- Read one decimal character back into a digit. -/
def charDigit (c : Char) : Option Nat :=
  if 48 ≤ c.toNat ∧ c.toNat ≤ 57 then some (c.toNat - 48) else none

/-- Read all characters as decimal digits (most significant first). -/
def readDigits : List Char → Option (List Nat)
  | [] => some []
  | c :: cs =>
    match charDigit c, readDigits cs with
    | some d, some ds => some (d :: ds)
    | _, _ => none

/-- `istream >> (unsigned)` followed by an `eof` check on a character list:
the whole list must be a non-empty run of decimal digits. -/
def parseNatChars (l : List Char) : Option Nat :=
  if l = [] then none
  else (readDigits l).map (fun ds => Nat.ofDigits 10 ds.reverse)

/-- `FromString` specialised to the unsigned counters. -/
def parseNat (s : String) : Option Nat := parseNatChars s.data

/-- Split a character list at the first occurrence of `sep` (the separator is
dropped); if `sep` does not occur, the whole list is the first component. -/
def splitAtChar (sep : Char) : List Char → List Char × List Char
  | [] => ([], [])
  | c :: cs =>
    if c = sep then ([], cs)
    else
      let r := splitAtChar sep cs
      (c :: r.1, r.2)

/-- Modelled from the spec: `LossScaler::SaveToString` is not in the provided
sources; per spec §4.3 it serializes the `(current_scale,
window_without_overflow)` pair as an opaque string.  We fix a concrete
space-separated decimal encoding: sign bit, |numerator|, denominator of the
scale, then the window. -/
def LossScaler.SaveToChars (s : LossScaler) : List Char :=
  natToChars (if s.current_scale.num < 0 then 1 else 0) ++ ' ' ::
  natToChars s.current_scale.num.natAbs ++ ' ' ::
  natToChars s.current_scale.den ++ ' ' ::
  natToChars s.window_without_overflow

/-- Modelled from the spec: `LossScaler::SaveToString` (see `SaveToChars`). -/
def LossScaler.SaveToString (s : LossScaler) : String := ⟨s.SaveToChars⟩

/-- Modelled from the spec: `LossScaler::LoadFromString` restores exactly the
serialized `(current_scale, window_without_overflow)` pair into the existing
scaler, leaving its name, mode and policy constants unchanged. -/
def LossScaler.LoadFromString (s : LossScaler) (input : String) : Option LossScaler :=
  let p1 := splitAtChar ' ' input.data
  let p2 := splitAtChar ' ' p1.2
  let p3 := splitAtChar ' ' p2.2
  match parseNatChars p1.1, parseNatChars p2.1, parseNatChars p3.1, parseNatChars p3.2 with
  | some sign, some n, some d, some w =>
    some { s with current_scale := mkRat (if sign = 1 then -(n : Int) else (n : Int)) d,
                  window_without_overflow := w }
  | _, _, _, _ => none

/-- The `std::unordered_map<std::string, std::string>` of checkpoint
properties, modelled as a lookup function. -/
def PropMap : Type := String → Option String

/-- `properties[name] = value` (insert or overwrite). -/
def PropMap.insert (m : PropMap) (k v : String) : PropMap :=
  fun k' => if k' = k then some v else m k'

/-- A fresh, empty property map. -/
def emptyProps : PropMap := fun _ => none

/-! ### The runner's mutable state and the worker pool trace -/

/-- One executed training step as observed from the outside: which step index
it ran at, whether it was a weight-update step, which fetch names it requested
from the session, and whether the user error callback fired. -/
structure StepRecord where
  stepIndex : Nat
  isWeightUpdate : Bool
  fetchNames : List String
  callbackFired : Bool
deriving DecidableEq

/-- Operations performed on `pipeline_worker_pool_`, in program order.
`write s` is the overwrite of worker slot `s`'s feed/fetch buffers
(`worker_states[s].feed_names = ...` etc.); `dispatch s` starts the slot's
thread. -/
inductive PoolEvent
  | join (slot : Nat)
  | joinAll
  | write (slot : Nat)
  | dispatch (slot : Nat)
deriving DecidableEq

/-- The mutable state of a `TrainingRunner`: the persisted counters (`step_`,
`round_`, `weight_update_step_count_`, `training_data_set_index_`), the local
accumulation counter of `TrainingLoop`, the loss scaler, the training data
loader position (`loaderShards` is the cyclic shard list rotated so its head is
the current shard; `none` is a shard that fails to load; `some b` is a loaded
shard with `b = TotalBatch(batch_size)` batches), the test data loader position
with the static `current_batch` cursor of `Evaluate`, and the observation
traces (step records, worker pool operations, evaluation error-callback
decisions). -/
structure LoopState where
  step_ : Nat
  round_ : Nat
  weight_update_step_count_ : Nat
  training_data_set_index_ : Nat
  gradient_accumulation_step_count : Nat
  loss_scaler_ : Option LossScaler
  loaderShards : List (Option Nat)
  loaderIndex : Nat
  testShards : List Nat
  testCursor : Nat
  trace : List StepRecord
  poolTrace : List PoolEvent
  evalCallbacks : List Bool
deriving DecidableEq

/-- `TrainingRunner::SaveCheckpointProperties` (training_runner.cc:1301-1317):
store the four counters via `std::to_string`, and the loss scaler state when a
scaler exists. -/
def SaveCheckpointProperties (st : LoopState) (properties : PropMap) : PropMap :=
  let m := properties.insert "step" (natToString st.step_)
  let m := m.insert "round" (natToString st.round_)
  let m := m.insert "weight_update_step" (natToString st.weight_update_step_count_)
  let m := m.insert "training_data_set_index" (natToString st.training_data_set_index_)
  match st.loss_scaler_ with
  | some s => m.insert "loss_scaler_state" s.SaveToString
  | none => m

/-- The `load_property` lambda of `LoadCheckpointProperties`: missing key or
parse failure is an error. -/
def loadProperty (properties : PropMap) (name : String) : Except String Nat :=
  match properties name with
  | none => .error "property not found"
  | some s =>
    match parseNat s with
    | none => .error "failed to parse property"
    | some v => .ok v

/-- `TrainingRunner::LoadCheckpointProperties` (training_runner.cc:1319-1342):
restore the four counters, and — when the runner owns a loss scaler — require
and restore the serialized scaler state. -/
def LoadCheckpointProperties (st : LoopState) (properties : PropMap) :
    Except String LoopState := do
  let step ← loadProperty properties "step"
  let round ← loadProperty properties "round"
  let weight_update_step ← loadProperty properties "weight_update_step"
  let training_data_set_index ← loadProperty properties "training_data_set_index"
  match st.loss_scaler_ with
  | some s =>
    match properties "loss_scaler_state" with
    | none => .error "property not found"
    | some str =>
      match s.LoadFromString str with
      | none => .error "failed to parse loss scaler state"
      | some s' =>
        .ok { st with step_ := step, round_ := round,
                      weight_update_step_count_ := weight_update_step,
                      training_data_set_index_ := training_data_set_index,
                      loss_scaler_ := some s' }
  | none =>
    .ok { st with step_ := step, round_ := round,
                  weight_update_step_count_ := weight_update_step,
                  training_data_set_index_ := training_data_set_index }

/-! ### RunWithUpdate / RunWithoutUpdate -/

/-- `IDataLoader::MoveToNextDataSet` on the rotated shard view: the cyclic
loader advances to the next shard. -/
def rotate1 {α : Type} : List α → List α
  | [] => []
  | x :: xs => xs ++ [x]

/-- `TrainingRunner::RunWithUpdate` (training_runner.cc:636-719).  The session
run itself is external; the fetched `GradientAllIsFinite` scalar is supplied by
the oracle `all_finite`.  The pool operations are: `Join(worker_id)`, the
overwrite of that slot's buffers, the thread launch, `JoinAll()` (line 678),
and the second `JoinAll()` (line 713). -/
def RunWithUpdate (cfg : RunnerConfig) (all_finite : Bool) (st : LoopState)
    (fetch_names : List String) : LoopState :=
  let worker_id := st.step_ % cfg.params.pipeline_parallel_size
  let scaler' :=
    match st.loss_scaler_ with
    | some s =>
      -- std::find over fetch_names for opt_graph_outputs_[GradientAllIsFinite]
      -- (operator[] yields "" when the key is absent).
      if (cfg.opt.gradientAllIsFinite.getD "") ∈ fetch_names then
        some (s.UpdateLossScale all_finite)
      else some s
    | none => none
  let session_can_see_loss := cfg.params.pipeline_parallel_size = 1 ∨
    cfg.ctx.pipeline_stage_id = cfg.params.pipeline_parallel_size - 1
  let fired := decide (session_can_see_loss ∧ cfg.params.is_perf_test = false ∧
    st.weight_update_step_count_ % cfg.params.display_loss_steps = 0) &&
    cfg.params.error_function_present
  { st with
    step_ := st.step_ + 1,
    weight_update_step_count_ := st.weight_update_step_count_ + 1,
    loss_scaler_ := scaler',
    trace := st.trace ++ [⟨st.step_, true, fetch_names, fired⟩],
    poolTrace := st.poolTrace ++
      [.join worker_id, .write worker_id, .dispatch worker_id, .joinAll, .joinAll] }

/-- `TrainingRunner::RunWithoutUpdate` (training_runner.cc:722-768): join the
cyclically chosen slot, overwrite its buffers, launch asynchronously, and
advance `step_` and the accumulation counter. -/
def RunWithoutUpdate (cfg : RunnerConfig) (st : LoopState)
    (fetch_names : List String) : LoopState :=
  let worker_id := st.step_ % cfg.params.pipeline_parallel_size
  { st with
    step_ := st.step_ + 1,
    gradient_accumulation_step_count := st.gradient_accumulation_step_count + 1,
    trace := st.trace ++ [⟨st.step_, false, fetch_names, false⟩],
    poolTrace := st.poolTrace ++
      [.join worker_id, .write worker_id, .dispatch worker_id] }

/-! ### Evaluate -/

/-- The interface of the test data loader consumed by `Evaluate`: its tensor
names and the batches it hands out (opaque). -/
structure TestLoader where
  dataNames : List String
  getBatch : Nat → List FeedValue

/-- `num_batches = ceil(eval_batch_size / batch_size)` of `Evaluate`
(training_runner.cc:1118; the float arithmetic of the source is modelled as
exact ceiling division). -/
def evalNumBatches (p : Parameters) : Nat :=
  if p.batch_size = 0 then 0 else (p.eval_batch_size + p.batch_size - 1) / p.batch_size

/-- The body of `Evaluate`'s batch loop (training_runner.cc:1129-1200), run
`num_batches` times: build evaluation feeds/fetches, run the session (on
worker slot 0 when there is no pipeline, inline otherwise), decide whether the
user error callback fires on this stage, and advance the static
`current_batch` cursor, moving to the next test shard when the current one is
exhausted. -/
def evaluateLoop (cfg : RunnerConfig) (sched : PipelineScheduler) (tl : TestLoader) :
    Nat → Nat → LoopState → Except String LoopState
  | 0, _, st => .ok st
  | n + 1, batch_idx, st => do
    let _feeds ← PrepareFeedNamesAndFeeds cfg st.loss_scaler_ sched .EvaluateStep
      tl.dataNames (tl.getBatch batch_idx) none st.step_
    let _fetches ← PrepareFetchNamesAndFetches cfg .EvaluateStep
    let poolEvents : List PoolEvent :=
      if cfg.params.pipeline_parallel_size = 1 then [.join 0, .dispatch 0, .join 0] else []
    -- Only the last pipeline stage can see user-specified fetches.
    let session_can_see_loss :=
      cfg.ctx.pipeline_stage_id = cfg.params.pipeline_parallel_size - 1
    let fired := decide session_can_see_loss && cfg.params.error_function_present
    let st := { st with poolTrace := st.poolTrace ++ poolEvents,
                        evalCallbacks := st.evalCallbacks ++ [fired] }
    let st :=
      if st.testShards.headD 0 ≤ st.testCursor + 1 then
        { st with testShards := rotate1 st.testShards, testCursor := 0 }
      else { st with testCursor := st.testCursor + 1 }
    evaluateLoop cfg sched tl n (batch_idx + 1) st

/-- `TrainingRunner::Evaluate` (training_runner.cc:1098-1208).  It never
touches `step_`, `weight_update_step_count_` or the training loader. -/
def Evaluate (cfg : RunnerConfig) (sched : PipelineScheduler) (tl : TestLoader)
    (st : LoopState) : Except String LoopState :=
  if cfg.params.skip_evaluation then .ok st
  else evaluateLoop cfg sched tl (evalNumBatches cfg.params) 0 st

/-! ### TrainingLoop -/

/-- The external inputs of one `TrainingLoop` run: the configuration, the
pipeline scheduler, the training data loader (tensor names, per-(shard, batch)
values, and the cyclic shard list), the learning-rate scheduler, the oracle
for the fetched all-finite bit, and the optional test data loader. -/
structure LoopInputs where
  cfg : RunnerConfig
  sched : PipelineScheduler
  dataNames : List String
  getBatch : Nat → Nat → List FeedValue
  lrFn : Nat → ℚ
  allFinite : Nat → Bool
  testLoader : Option TestLoader
  trainShards : List (Option Nat)
  testShards : List Nat

/-- The evaluation cadence check of the batch loop (training_runner.cc:891-894,
executed after the step counters advanced). -/
def maybeEvaluate (I : LoopInputs) (st : LoopState) : Except String LoopState :=
  match I.testLoader with
  | some tl =>
    if I.cfg.params.do_eval ∧ st.step_ % I.cfg.params.evaluation_period = 0 then
      Evaluate I.cfg I.sched tl st
    else .ok st
  | none => .ok st

/-- One iteration of the batch loop (training_runner.cc:823-919): decide
weight-update vs accumulation from `(step_ + 1) % gradient_accumulation_steps`,
build feeds and fetches for that mode, run, then possibly evaluate.  The
checkpoint block (896-919) only touches the checkpoint registry and the
filesystem, neither of which is part of the modelled state. -/
def runOneBatch (I : LoopInputs) (batch : Nat) (st : LoopState) :
    Except String LoopState := do
  if (st.step_ + 1) % I.cfg.params.gradient_accumulation_steps = 0 then
    let _feeds ← PrepareFeedNamesAndFeeds I.cfg st.loss_scaler_ I.sched .ModelUpdateStep
      I.dataNames (I.getBatch st.training_data_set_index_ batch) (some I.lrFn) st.step_
    let fetch_names ← PrepareFetchNamesAndFetches I.cfg .ModelUpdateStep
    maybeEvaluate I (RunWithUpdate I.cfg (I.allFinite st.step_) st fetch_names)
  else
    let _feeds ← PrepareFeedNamesAndFeeds I.cfg st.loss_scaler_ I.sched .GradientAccumulateStep
      I.dataNames (I.getBatch st.training_data_set_index_ batch) (some I.lrFn) st.step_
    let fetch_names ← PrepareFetchNamesAndFetches I.cfg .GradientAccumulateStep
    maybeEvaluate I (RunWithoutUpdate I.cfg st fetch_names)

/-- The batch loop over one shard
(`for (batch = 0; batch < batch_num_cur_shard && step_ < num_train_steps; ++batch)`). -/
def runBatchLoop (I : LoopInputs) : Nat → Nat → LoopState → Except String LoopState
  | 0, _, st => .ok st
  | n + 1, batch, st =>
    if st.step_ < I.cfg.params.num_train_steps then do
      let st' ← runOneBatch I batch st
      runBatchLoop I n (batch + 1) st'
    else .ok st

/-- `k` iterations of the shard loop
(`for (shard_it = 0; shard_it < num_shards_to_visit; ++shard_it)`,
training_runner.cc:805-926): record the loader's index, skip a shard that
failed to load, otherwise run its batches, drain the pool (`JoinAll`), and
advance the loader unless `num_train_steps` was reached. -/
def runShardIters (I : LoopInputs) : Nat → LoopState → Except String LoopState
  | 0, st => .ok st
  | k + 1, st =>
    let st := { st with training_data_set_index_ := st.loaderIndex }
    match st.loaderShards with
    | [] =>
      -- No shards at all: the surrounding code never iterates in this case.
      runShardIters I k st
    | none :: _ =>
      -- Shard failed to load: log, move to the next shard, continue.
      runShardIters I k
        { st with loaderShards := rotate1 st.loaderShards,
                  loaderIndex := (st.loaderIndex + 1) % st.loaderShards.length }
    | some batch_num_cur_shard :: _ => do
      let st' ← runBatchLoop I batch_num_cur_shard 0 st
      let st' := { st' with poolTrace := st'.poolTrace ++ [.joinAll] }
      if st'.step_ < I.cfg.params.num_train_steps then
        runShardIters I k
          { st' with loaderShards := rotate1 st'.loaderShards,
                     loaderIndex := (st'.loaderIndex + 1) % st'.loaderShards.length }
      else
        runShardIters I k st'

/-- The epoch loop (`while (step_ < params_.num_train_steps)`,
training_runner.cc:804-929), with explicit fuel bounding the number of
epochs. -/
def trainingLoopAux (I : LoopInputs) : Nat → LoopState → Except String LoopState
  | 0, st => .ok st
  | fuel + 1, st =>
    if st.step_ < I.cfg.params.num_train_steps then do
      let st' ← runShardIters I st.loaderShards.length st
      trainingLoopAux I fuel st'
    else .ok st

/-- `TrainingRunner::TrainingLoop` (training_runner.cc:770-975): initialize the
test loader to shard 0 and the training loader to
`training_data_set_index_`, then run the epoch loop.  Performance measurement
and the perf-metrics artifact have no effect on the modelled state. -/
def TrainingLoop (I : LoopInputs) (fuel : Nat) (st : LoopState) :
    Except String LoopState :=
  trainingLoopAux I fuel
    { st with
      loaderShards := List.rotate I.trainShards st.training_data_set_index_,
      loaderIndex := st.training_data_set_index_,
      testShards := I.testShards }

/-! ### Derived notions used in the statements -/

/-- The eight configured pipeline event input (feed) names, in the order
`PrepareFeedNamesAndFeeds` visits them. -/
def eventInputNames (ctx : PipelineContext) : List String :=
  [ctx.forward_waited_event_name,
   ctx.forward_waited_event_after_recv_name,
   ctx.forward_recorded_event_before_send_name,
   ctx.forward_recorded_event_name,
   ctx.backward_waited_event_name,
   ctx.backward_waited_event_after_recv_name,
   ctx.backward_recorded_event_before_send_name,
   ctx.backward_recorded_event_name]

/-- The four configured pipeline event output (fetch) names, in the order
`PrepareFetchNamesAndFetches` visits them. -/
def eventOutputNames (ctx : PipelineContext) : List String :=
  [ctx.forward_wait_output_name,
   ctx.forward_record_output_name,
   ctx.backward_wait_output_name,
   ctx.backward_record_output_name]

/-- A configuration on which the per-step feed/fetch preparation never fails:
non-empty event names only occur with an actual pipeline, and the optimizer
outputs demanded by the modes are present. -/
def WellFormed (cfg : RunnerConfig) : Prop :=
  (∀ n ∈ eventInputNames cfg.ctx, n ≠ "" → 1 < cfg.params.pipeline_parallel_size) ∧
  (1 < cfg.params.gradient_accumulation_steps → cfg.opt.gradientAccumulation.isSome) ∧
  (¬ 1 < cfg.params.pipeline_parallel_size → cfg.params.use_mixed_precision = true →
    cfg.opt.gradientAllIsFinite.isSome ∧
    (cfg.params.use_adasum = true → cfg.opt.deltaAllIsFinite.isSome))

/-- The event feeds an evaluation pass is expected to carry: every non-empty
configured event input name, bound to the sentinel id `-1`. -/
def sentinelEventFeeds (ctx : PipelineContext) : List (String × FeedValue) :=
  (eventInputNames ctx).flatMap
    (fun n => if n = "" then [] else [(n, FeedValue.scalarI (-1))])

/-- The loss-scale feed an evaluation pass is expected to carry: the scaler's
input name bound to `1.0`, whenever a scaler exists and its input is allowed on
this stage. -/
def lossScaleEvalFeed (cfg : RunnerConfig) (loss_scaler : Option LossScaler) :
    List (String × FeedValue) :=
  match loss_scaler with
  | none => []
  | some s =>
    if cfg.params.pipeline_parallel_size = 1 ∨ s.input_name ∈ cfg.ctx.feed_names then
      [(s.input_name, FeedValue.scalarF 1)]
    else []

/-- The data-loader feeds restricted to this pipeline stage. -/
def dataFeedsPart (cfg : RunnerConfig) (data_feed_names : List String)
    (data_feeds : List FeedValue) : List (String × FeedValue) :=
  (data_feed_names.zip data_feeds).filter
    (fun nv => cfg.params.pipeline_parallel_size = 1 ∨ nv.1 ∈ cfg.ctx.feed_names)

/-- The learning-rate feed (rate `0` without a scheduler, as in evaluation). -/
def lrFeedPart (cfg : RunnerConfig) (lr_scheduler : Option (Nat → ℚ)) (step : Nat) :
    List (String × FeedValue) :=
  if cfg.params.pipeline_parallel_size = 1 ∨ cfg.params.lr_feed_name ∈ cfg.ctx.feed_names then
    [(cfg.params.lr_feed_name,
      FeedValue.scalarF (match lr_scheduler with | some f => f (step + 1) | none => 0))]
  else []

/-- The fetch names a gradient-accumulation step is expected to request: the
gradient-accumulation signal (exactly when `gradient_accumulation_steps > 1`)
plus the non-empty pipeline event output names. -/
def accumulateFetchNames (cfg : RunnerConfig) (g : String) : List String :=
  (if 1 < cfg.params.gradient_accumulation_steps then [g] else []) ++
  (eventOutputNames cfg.ctx).filter (fun n => n ≠ "")

/-- The number of weight-update steps among step indices `s ≤ t < e`: those
with `(t + 1) % A = 0`. -/
def countWU (A s e : Nat) : Nat :=
  ((Finset.Ico s e).filter (fun t => (t + 1) % A = 0)).card

/-- The total number of batches one full cyclic pass over the loader's shards
can supply (a failed shard supplies none). -/
def shardsTotalBatches (shards : List (Option Nat)) : Nat :=
  (shards.map (fun o => o.getD 0)).sum

/-- Scan of a pool trace checking that every buffer overwrite `write s` is
immediately preceded by `join s` (the previous event is threaded through). -/
def chainAux : Option PoolEvent → List PoolEvent → Bool
  | _, [] => true
  | prev, e :: rest =>
    (match e with
     | .write s => decide (prev = some (.join s))
     | _ => true) && chainAux (some e) rest

/-- Scan of a pool trace checking that no slot is dispatched while a prior
dispatch on the same slot is unjoined (`pending` is the set of dispatched,
not-yet-joined slots). -/
def dispatchSafe : List Nat → List PoolEvent → Bool
  | _, [] => true
  | pending, .dispatch s :: rest =>
    !(pending.contains s) && dispatchSafe (s :: pending) rest
  | pending, .join s :: rest => dispatchSafe (pending.filter (fun t => t ≠ s)) rest
  | _, .joinAll :: rest => dispatchSafe [] rest
  | pending, .write _ :: rest => dispatchSafe pending rest

/-- The two worker-pool safety properties of a trace, stated for every scan
start so they are stable under concatenation: every slot-buffer overwrite is
immediately preceded by a `Join` of that slot, and between any two dispatches
to the same slot a `Join` of that slot (or a `JoinAll`) occurs. -/
def PoolInv (l : List PoolEvent) : Prop :=
  (∀ p, chainAux p l = true) ∧ (∀ pending, dispatchSafe pending l = true)

/-- Every recorded step was a weight-update step exactly when
`(stepIndex + 1) % A = 0`. -/
def TraceInv (A : Nat) (st : LoopState) : Prop :=
  ∀ r ∈ st.trace, r.isWeightUpdate = decide ((r.stepIndex + 1) % A = 0)

/-! ### Concrete instances for the end-to-end scenario and witnesses -/

/-- A pipeline scheduler instance (its values are irrelevant to the concrete
runs below, which have a single stage). -/
def sched0 : PipelineScheduler :=
  ⟨fun _ _ => 0, fun _ _ => 0, fun _ _ => 0, fun _ _ => 0,
   fun _ _ => 0, fun _ _ => 0, fun _ _ => 0, fun _ _ => 0⟩

/-- A pipeline context for a single-stage run: stage 0, no event names. -/
def ctx1 : PipelineContext :=
  { pipeline_stage_id := 0, num_pipeline_batches := 1,
    feed_names := [], fetch_names := ["loss"],
    forward_waited_event_name := "", forward_waited_event_after_recv_name := "",
    forward_recorded_event_before_send_name := "", forward_recorded_event_name := "",
    backward_waited_event_name := "", backward_waited_event_after_recv_name := "",
    backward_recorded_event_before_send_name := "", backward_recorded_event_name := "",
    forward_wait_output_name := "", forward_record_output_name := "",
    backward_wait_output_name := "", backward_record_output_name := "" }

/-- Parameters of the end-to-end scenario: `num_train_steps = 4`,
`gradient_accumulation_steps = 2`, a single pipeline stage. -/
def params4 : Parameters :=
  { model_path := "model.onnx", weights_to_train := [], weights_not_to_train := [],
    training_optimizer_name := "SGDOptimizer", deepspeed_zero_stage := 0,
    use_nccl := false, num_train_steps := 4, gradient_accumulation_steps := 2,
    pipeline_parallel_size := 1, batch_size := 1, eval_batch_size := 1,
    fetch_names := ["loss"], lr_feed_name := "Learning_Rate",
    use_mixed_precision := false, use_adasum := false, is_perf_test := true,
    display_loss_steps := 1, do_eval := false, evaluation_period := 1,
    skip_evaluation := false, shuffle_data := false,
    error_function_present := false, post_evaluation_callback_present := false }

/-- The configuration of the end-to-end scenario; the optimizer exposes a
gradient-accumulation output named `Group_Accumulated_Gradients`. -/
def cfg4 : RunnerConfig :=
  { params := params4, ctx := ctx1,
    opt := { gradientAllIsFinite := none, deltaAllIsFinite := none,
             gradientAccumulation := some "Group_Accumulated_Gradients" } }

/-- The loop inputs of the end-to-end scenario: one shard of 4 batches, no
test loader. -/
def I4 : LoopInputs :=
  { cfg := cfg4, sched := sched0, dataNames := ["input1"],
    getBatch := fun _ _ => [.tensor 0], lrFn := fun _ => 0,
    allFinite := fun _ => true, testLoader := none,
    trainShards := [some 4], testShards := [] }

/-- A fresh runner state: all counters zero, no scaler, empty traces. -/
def st0 : LoopState :=
  { step_ := 0, round_ := 0, weight_update_step_count_ := 0,
    training_data_set_index_ := 0, gradient_accumulation_step_count := 0,
    loss_scaler_ := none, loaderShards := [], loaderIndex := 0,
    testShards := [], testCursor := 0, trace := [], poolTrace := [],
    evalCallbacks := [] }

/-- The error-callback decision of one `Evaluate` batch: the session can see
the loss only on the last pipeline stage, and a callback must be registered. -/
def evalFired (cfg : RunnerConfig) : Bool :=
  decide (cfg.ctx.pipeline_stage_id = cfg.params.pipeline_parallel_size - 1) &&
  cfg.params.error_function_present

/-- A dynamic loss scaler in its initial state (`2^16`, as built by
`TrainingRunner::Initialize`). -/
def scaler1 : LossScaler :=
  { input_name := "loss_scale_input_name", is_dynamic := true,
    current_scale := 65536, window_without_overflow := 0,
    min_loss_scale := 1, max_loss_scale := 65536, up_scale_window := 2000 }

/-- A test data loader instance. -/
def tl0 : TestLoader := { dataNames := ["input1"], getBatch := fun _ => [] }

/-- The configuration of `cfg4` with `gradient_accumulation_steps = 1`: a
gradient-accumulation step then constructs an empty fetch list, triggering the
full-output fallback. -/
def cfgC5 : RunnerConfig :=
  { cfg4 with params := { params4 with gradient_accumulation_steps := 1 } }

/-- A two-stage configuration seen from stage 0 (not the last stage). -/
def cfgC6 : RunnerConfig :=
  { cfg4 with params := { params4 with pipeline_parallel_size := 2 } }

/-- A two-stage configuration seen from stage 0 whose user fetch names all
live on the other stage, so evaluation constructs an empty fetch list. -/
def cfgC10 : RunnerConfig :=
  { params := { params4 with pipeline_parallel_size := 2 },
    ctx := { ctx1 with fetch_names := ["stage0_out"] },
    opt := cfg4.opt }

/-- A runner state whose current training shard failed to load. -/
def stC9 : LoopState := { st0 with loaderShards := [none, some 1] }

/-! ## Theorems

### Decimal serialization round-trips (checkpoint properties) -/

theorem charDigit_digitChar {d : Nat} (h : d < 10) : charDigit (digitChar d) = some d := by
  interval_cases d <;> rfl

theorem readDigits_map {ds : List Nat} (h : ∀ d ∈ ds, d < 10) :
    readDigits (ds.map digitChar) = some ds := by
  induction ds with
  | nil => rfl
  | cons d ds ih =>
    simp only [List.map_cons, readDigits,
      charDigit_digitChar (h d (List.mem_cons_self d ds)),
      ih (fun x hx => h x (List.mem_cons_of_mem d hx))]

theorem natToChars_digits_lt (n : Nat) :
    ∀ d ∈ (if n = 0 then [0] else (Nat.digits 10 n).reverse), d < 10 := by
  intro d hd
  by_cases h : n = 0
  · simp [h] at hd; omega
  · rw [if_neg h, List.mem_reverse] at hd
    exact Nat.digits_lt_base (by norm_num) hd

theorem parseNatChars_natToChars (n : Nat) : parseNatChars (natToChars n) = some n := by
  unfold parseNatChars natToChars
  rw [if_neg, readDigits_map (natToChars_digits_lt n)]
  · by_cases h : n = 0
    · simp [h, Nat.ofDigits]
    · simp [h, List.reverse_reverse, Nat.ofDigits_digits]
  · by_cases h : n = 0
    · simp [h]
    · simp [h, Nat.digits_ne_nil_iff_ne_zero]

theorem parseNat_natToString (n : Nat) : parseNat (natToString n) = some n :=
  parseNatChars_natToChars n

theorem natToChars_toNat_range {n : Nat} {c : Char} (hc : c ∈ natToChars n) :
    48 ≤ c.toNat ∧ c.toNat ≤ 57 := by
  unfold natToChars at hc
  rw [List.mem_map] at hc
  obtain ⟨d, hd, rfl⟩ := hc
  have := natToChars_digits_lt n d hd
  interval_cases d <;> exact ⟨by decide, by decide⟩

theorem space_not_mem_natToChars (n : Nat) : ' ' ∉ natToChars n := by
  intro h
  have := natToChars_toNat_range h
  revert this; decide

theorem splitAtChar_append {sep : Char} {a : List Char} (b : List Char) (h : sep ∉ a) :
    splitAtChar sep (a ++ sep :: b) = (a, b) := by
  induction a with
  | nil => simp [splitAtChar]
  | cons c cs ih =>
    have hc : ¬ c = sep := fun hcs => h (hcs ▸ List.mem_cons_self c cs)
    simp only [List.cons_append, splitAtChar, if_neg hc, List.append_eq]
    rw [ih (fun hm => h (List.mem_cons_of_mem c hm))]

theorem LossScaler.LoadFromString_SaveToString (s : LossScaler) :
    s.LoadFromString s.SaveToString = some s := by
  have key : ∀ (x : Nat) (rest : List Char),
      splitAtChar ' ' (natToChars x ++ ' ' :: rest) = (natToChars x, rest) :=
    fun x rest => splitAtChar_append rest (space_not_mem_natToChars x)
  unfold LossScaler.LoadFromString LossScaler.SaveToString LossScaler.SaveToChars
  simp only [List.cons_append, List.append_assoc]
  by_cases h : s.current_scale.num < 0
  · have hn : (-(↑s.current_scale.num.natAbs) : Int) = s.current_scale.num := by omega
    rw [if_pos h, key, key, key]
    simp only [parseNatChars_natToChars]
    simp only [if_true]
    rw [hn, Rat.mkRat_self]
  · have hn : ((↑s.current_scale.num.natAbs) : Int) = s.current_scale.num := by omega
    rw [if_neg h, key, key, key]
    simp only [parseNatChars_natToChars]
    simp only [show ((0 : Nat) = 1) = False by simp, if_false]
    rw [hn, Rat.mkRat_self]

theorem loadProperty_of_lookup {m : PropMap} {k : String} {v : Nat}
    (h : m k = some (natToString v)) : loadProperty m k = .ok v := by
  unfold loadProperty
  rw [h]
  simp only [parseNat_natToString]

/-- C2: saving the checkpoint properties of any runner state into any property
map and loading them back restores `step_`, `round_`,
`weight_update_step_count_` and `training_data_set_index_` exactly, and — when
a loss scaler exists — its serialized (scale, no-overflow window) state
exactly; indeed the whole runner state is restored. -/
theorem checkpoint_properties_roundtrip (st : LoopState) (m0 : PropMap) :
    LoadCheckpointProperties st (SaveCheckpointProperties st m0) = .ok st := by
  have bind_ok : ∀ {α β : Type} (a : α) (f : α → Except String β),
      (Except.ok a >>= f) = f a := fun _ _ => rfl
  have hstep : SaveCheckpointProperties st m0 "step" = some (natToString st.step_) := by
    cases hsc : st.loss_scaler_ <;>
      simp [SaveCheckpointProperties, PropMap.insert, hsc]
  have hround : SaveCheckpointProperties st m0 "round" = some (natToString st.round_) := by
    cases hsc : st.loss_scaler_ <;>
      simp [SaveCheckpointProperties, PropMap.insert, hsc]
  have hwus : SaveCheckpointProperties st m0 "weight_update_step" =
      some (natToString st.weight_update_step_count_) := by
    cases hsc : st.loss_scaler_ <;>
      simp [SaveCheckpointProperties, PropMap.insert, hsc]
  have htdsi : SaveCheckpointProperties st m0 "training_data_set_index" =
      some (natToString st.training_data_set_index_) := by
    cases hsc : st.loss_scaler_ <;>
      simp [SaveCheckpointProperties, PropMap.insert, hsc]
  unfold LoadCheckpointProperties
  rw [loadProperty_of_lookup hstep, bind_ok, loadProperty_of_lookup hround, bind_ok,
    loadProperty_of_lookup hwus, bind_ok, loadProperty_of_lookup htdsi, bind_ok]
  obtain ⟨s1, s2, s3, s4, s5, sc, s6, s7, s8, s9, s10, s11, s12⟩ := st
  cases sc with
  | none => rfl
  | some s =>
    have hscaler : SaveCheckpointProperties
        ⟨s1, s2, s3, s4, s5, some s, s6, s7, s8, s9, s10, s11, s12⟩ m0 "loss_scaler_state" =
        some s.SaveToString := by
      simp [SaveCheckpointProperties, PropMap.insert]
    rw [hscaler]
    simp only [LossScaler.LoadFromString_SaveToString]

/-! ### Constructor checks (C7) -/

/-- C7: construction fails eagerly whenever `num_train_steps` is not a
multiple of `gradient_accumulation_steps`, and whenever DeepSpeed ZeRO
partitioning is requested without NCCL; when both conditions hold (and the
remaining, unrelated enforcements pass) construction succeeds. -/
theorem constructor_checks_spec (p : Parameters) :
    (p.num_train_steps % p.gradient_accumulation_steps ≠ 0 →
      ∃ e, TrainingRunnerConstructorChecks p = .error e) ∧
    (p.deepspeed_zero_stage ≠ 0 ∧ p.use_nccl = false →
      ∃ e, TrainingRunnerConstructorChecks p = .error e) ∧
    (p.model_path ≠ "" → p.training_optimizer_name ≠ "" →
      (p.weights_to_train = [] ∨ p.weights_not_to_train = []) →
      p.num_train_steps % p.gradient_accumulation_steps = 0 →
      (p.deepspeed_zero_stage ≠ 0 → p.use_nccl = true) →
      TrainingRunnerConstructorChecks p = .ok ()) := by
  unfold TrainingRunnerConstructorChecks
  refine ⟨?_, ?_, ?_⟩
  · intro h
    split_ifs <;> first | exact ⟨_, rfl⟩ | exact absurd h (by tauto)
  · intro h
    split_ifs <;> first | exact ⟨_, rfl⟩ | exact absurd h (by tauto)
  · intro h1 h2 h3 h4 h5
    rw [if_neg h1,
      if_neg (by rintro ⟨a, b⟩; rcases h3 with h | h; exacts [a h, b h]),
      if_neg h2,
      if_neg (by rintro ⟨a, b⟩; rw [h5 a] at b; exact Bool.noConfusion b),
      if_neg (fun hx => hx h4)]
    rfl

/-! ### Gradient-accumulation fetch names (C5) and the fallback (C10) -/

/-- C5 counterexample: with `gradient_accumulation_steps = 1`, a single stage
and no pipeline event outputs, the fetch list the claim describes is empty,
but `PrepareFetchNamesAndFetches` returns the full allowed fetch list
`["loss"]` instead of an empty list. -/
theorem accumulate_fetches_counterexample :
    PrepareFetchNamesAndFetches cfgC5 .GradientAccumulateStep = .ok ["loss"] ∧
    accumulateFetchNames cfgC5 "Group_Accumulated_Gradients" = [] ∧
    (["loss"] : List String) ≠ [] := by
  refine ⟨rfl, rfl, by simp⟩

/-- C5 (amended): for a gradient-accumulation fetch construction with
`pipeline_parallel_size ≥ 1` and the gradient-accumulation optimizer output
present, the constructed list is the accumulation signal (exactly when
`gradient_accumulation_steps > 1`) plus exactly the non-empty pipeline event
output names; that list is returned when non-empty, otherwise the full allowed
fetch list is returned instead. -/
theorem accumulate_fetch_names_spec (cfg : RunnerConfig) (g : String)
    (hpps : 1 ≤ cfg.params.pipeline_parallel_size)
    (hg : cfg.opt.gradientAccumulation = some g) :
    PrepareFetchNamesAndFetches cfg .GradientAccumulateStep =
      .ok (if accumulateFetchNames cfg g = [] then cfg.ctx.fetch_names
           else accumulateFetchNames cfg g) := by
  have h0 : cfg.params.pipeline_parallel_size ≠ 0 := by omega
  have hbind : ∀ {α : Type} (a : List String) (f : List String → Except String α),
      (Except.ok a >>= f) = f a := fun _ _ => rfl
  unfold PrepareFetchNamesAndFetches PrepareFetchNamesCore accumulateFetchNames
  rw [hg]
  by_cases hA : 1 < cfg.params.gradient_accumulation_steps <;>
    by_cases e1 : cfg.ctx.forward_wait_output_name = "" <;>
    by_cases e2 : cfg.ctx.forward_record_output_name = "" <;>
    by_cases e3 : cfg.ctx.backward_wait_output_name = "" <;>
    by_cases e4 : cfg.ctx.backward_record_output_name = "" <;>
    simp [hA, h0, e1, e2, e3, e4, eventOutputNames, hbind]

/-- C10: for every mode, whenever the mode-specific fetch construction yields
an empty list, `PrepareFetchNamesAndFetches` returns the full allowed list
`pipeline_context_.fetch_names` instead, and the returned list is empty
exactly when both the mode-specific list and the allowed list are empty. -/
theorem fetch_fallback_spec (cfg : RunnerConfig) (mode : SessionMode) (L : List String)
    (h : PrepareFetchNamesAndFetches cfg mode = .ok L) :
    (PrepareFetchNamesCore cfg mode = .ok [] → L = cfg.ctx.fetch_names) ∧
    (L = [] ↔ PrepareFetchNamesCore cfg mode = .ok [] ∧ cfg.ctx.fetch_names = []) := by
  unfold PrepareFetchNamesAndFetches at h
  rcases hc : PrepareFetchNamesCore cfg mode with e | names
  · rw [hc] at h
    exact absurd h (by intro hh; exact Except.noConfusion hh)
  · rw [hc] at h
    replace h : Except.ok (ε := String)
        (if names = [] then cfg.ctx.fetch_names else names) = .ok L := h
    have hL := Except.ok.inj h
    constructor
    · intro hcore
      have hn : names = [] := Except.ok.inj hcore
      rw [← hL, hn, if_pos rfl]
    · constructor
      · intro hLnil
        by_cases hn : names = []
        · exact ⟨by rw [hn], by rw [← hL, if_pos hn] at hLnil; exact hLnil⟩
        · rw [← hL, if_neg hn] at hLnil; exact absurd hLnil hn
      · rintro ⟨hcore, hfn⟩
        have hn : names = [] := Except.ok.inj hcore
        rw [← hL, if_pos hn, hfn]

/-! ### Evaluation feeds (C3) -/

theorem eventFeedBlock_ok (pps : Nat) (name : String) (ev : Bool) (schedId : Int)
    (h : name ≠ "" → 1 < pps) :
    eventFeedBlock pps name ev schedId =
      .ok (if name = "" then []
           else [(name, FeedValue.scalarI (if ev then -1 else schedId))]) := by
  unfold eventFeedBlock
  by_cases hn : name = ""
  · simp [hn]
  · simp [hn, show ¬ pps ≤ 1 by have := h hn; omega]

/-- C3: for every evaluation-mode feed construction, the loss-scale feed (when
a scaler exists and its input is allowed on this stage) carries exactly the
value `1.0`, and every pipeline event feed whose configured name is non-empty
carries the sentinel id `-1` — for every stage id, step value and scheduler
state, since the right-hand side depends on none of them. -/
theorem evaluate_feeds_spec (cfg : RunnerConfig) (loss_scaler : Option LossScaler)
    (sched : PipelineScheduler) (dn : List String) (dv : List FeedValue)
    (lr : Option (Nat → ℚ)) (step : Nat)
    (hEv : ∀ n ∈ eventInputNames cfg.ctx, n ≠ "" → 1 < cfg.params.pipeline_parallel_size) :
    PrepareFeedNamesAndFeeds cfg loss_scaler sched .EvaluateStep dn dv lr step =
      .ok (dataFeedsPart cfg dn dv ++ lossScaleEvalFeed cfg loss_scaler ++
           lrFeedPart cfg lr step ++ sentinelEventFeeds cfg.ctx) := by
  have hb : ∀ (name : String) (schedId : Int), name ∈ eventInputNames cfg.ctx →
      eventFeedBlock cfg.params.pipeline_parallel_size name true schedId =
        .ok (if name = "" then [] else [(name, FeedValue.scalarI (-1))]) := by
    intro name schedId hm
    rw [eventFeedBlock_ok _ _ _ _ (hEv name hm)]
    simp
  unfold PrepareFeedNamesAndFeeds
  simp only [decide_eq_true_eq, decide_True, reduceIte,
    hb _ _ (show cfg.ctx.forward_waited_event_name ∈ eventInputNames cfg.ctx by
      simp [eventInputNames]),
    hb _ _ (show cfg.ctx.forward_waited_event_after_recv_name ∈ eventInputNames cfg.ctx by
      simp [eventInputNames]),
    hb _ _ (show cfg.ctx.forward_recorded_event_before_send_name ∈ eventInputNames cfg.ctx by
      simp [eventInputNames]),
    hb _ _ (show cfg.ctx.forward_recorded_event_name ∈ eventInputNames cfg.ctx by
      simp [eventInputNames]),
    hb _ _ (show cfg.ctx.backward_waited_event_name ∈ eventInputNames cfg.ctx by
      simp [eventInputNames]),
    hb _ _ (show cfg.ctx.backward_waited_event_after_recv_name ∈ eventInputNames cfg.ctx by
      simp [eventInputNames]),
    hb _ _ (show cfg.ctx.backward_recorded_event_before_send_name ∈ eventInputNames cfg.ctx by
      simp [eventInputNames]),
    hb _ _ (show cfg.ctx.backward_recorded_event_name ∈ eventInputNames cfg.ctx by
      simp [eventInputNames])]
  have hbind : ∀ {α β : Type} (a : α) (f : α → Except String β),
      (Except.ok a >>= f) = f a := fun _ _ => rfl
  simp [sentinelEventFeeds, eventInputNames, dataFeedsPart, lossScaleEvalFeed, lrFeedPart,
    List.append_assoc, hbind]

/-! ### Worker-pool trace machinery (C8) -/

theorem chainAux_append {b : List PoolEvent} (hb : ∀ q, chainAux q b = true) :
    ∀ (a : List PoolEvent) (p : Option PoolEvent),
      chainAux p a = true → chainAux p (a ++ b) = true := by
  intro a
  induction a with
  | nil => intro p _; exact hb p
  | cons e a' ih =>
    intro p h
    rw [List.cons_append]
    unfold chainAux at h ⊢
    rw [Bool.and_eq_true] at h ⊢
    exact ⟨h.1, ih (some e) h.2⟩

theorem dispatchSafe_append {b : List PoolEvent} (hb : ∀ q, dispatchSafe q b = true) :
    ∀ (a : List PoolEvent) (pending : List Nat),
      dispatchSafe pending a = true → dispatchSafe pending (a ++ b) = true := by
  intro a
  induction a with
  | nil => intro pending _; exact hb pending
  | cons e a' ih =>
    intro pending h
    rw [List.cons_append]
    cases e with
    | join s => exact ih _ h
    | joinAll => exact ih _ h
    | write s => exact ih _ h
    | dispatch s =>
      unfold dispatchSafe at h ⊢
      rw [Bool.and_eq_true] at h ⊢
      exact ⟨h.1, ih _ h.2⟩

theorem PoolInv_append {a b : List PoolEvent} (ha : PoolInv a)
    (hb : (∀ q, chainAux q b = true) ∧ (∀ pending, dispatchSafe pending b = true)) :
    PoolInv (a ++ b) :=
  ⟨fun p => chainAux_append hb.1 a p (ha.1 p),
   fun pending => dispatchSafe_append hb.2 a pending (ha.2 pending)⟩

theorem contains_filter_ne (pending : List Nat) (w : Nat) :
    (pending.filter (fun t => t ≠ w)).contains w = false := by
  induction pending with
  | nil => rfl
  | cons x xs ih =>
    by_cases hx : x = w
    · simp [List.filter, hx, List.contains_cons, ih]
    · simp [List.filter, hx, List.contains_cons, ih, Ne.symm hx]

theorem poolBlock_sync (w : Nat) :
    (∀ q, chainAux q [PoolEvent.join w, .write w, .dispatch w, .joinAll, .joinAll] = true) ∧
    (∀ pending, dispatchSafe pending
      [PoolEvent.join w, .write w, .dispatch w, .joinAll, .joinAll] = true) := by
  constructor
  · intro q; simp [chainAux]
  · intro pending; simp [dispatchSafe, contains_filter_ne]

theorem poolBlock_async (w : Nat) :
    (∀ q, chainAux q [PoolEvent.join w, .write w, .dispatch w] = true) ∧
    (∀ pending, dispatchSafe pending [PoolEvent.join w, .write w, .dispatch w] = true) := by
  constructor
  · intro q; simp [chainAux]
  · intro pending; simp [dispatchSafe, contains_filter_ne]

theorem poolBlock_joinAll :
    (∀ q, chainAux q [PoolEvent.joinAll] = true) ∧
    (∀ pending, dispatchSafe pending [PoolEvent.joinAll] = true) := by
  exact ⟨fun q => rfl, fun pending => rfl⟩

theorem poolBlock_eval :
    (∀ q, chainAux q [PoolEvent.join 0, .dispatch 0, .join 0] = true) ∧
    (∀ pending, dispatchSafe pending [PoolEvent.join 0, .dispatch 0, .join 0] = true) := by
  constructor
  · intro q; simp [chainAux]
  · intro pending; simp [dispatchSafe, contains_filter_ne]

theorem poolBlock_nil :
    (∀ q, chainAux q ([] : List PoolEvent) = true) ∧
    (∀ pending, dispatchSafe pending ([] : List PoolEvent) = true) :=
  ⟨fun _ => rfl, fun _ => rfl⟩

/-! ### Weight-update counting (C1) -/

theorem countWU_self (A s : Nat) : countWU A s s = 0 := by
  simp [countWU]

theorem countWU_add (A : Nat) {s m e : Nat} (h1 : s ≤ m) (h2 : m ≤ e) :
    countWU A s m + countWU A m e = countWU A s e := by
  unfold countWU
  rw [← Finset.card_union_of_disjoint
    (Finset.disjoint_filter_filter (Finset.Ico_disjoint_Ico_consecutive s m e)),
    ← Finset.filter_union, Finset.Ico_union_Ico_eq_Ico h1 h2]

theorem countWU_succ (A s : Nat) :
    countWU A s (s + 1) = if (s + 1) % A = 0 then 1 else 0 := by
  unfold countWU
  rw [Nat.Ico_succ_singleton, Finset.filter_singleton]
  split_ifs <;> simp

theorem countWU_zero_eq_div (A : Nat) (hA : 1 ≤ A) (N : Nat) :
    countWU A 0 N = N / A := by
  induction N with
  | zero => simp [countWU]
  | succ n ih =>
    rw [← countWU_add A (Nat.zero_le n) (Nat.le_succ n), ih, countWU_succ, Nat.succ_div]
    congr 1
    by_cases h : A ∣ (n + 1)
    · rw [if_pos (Nat.dvd_iff_mod_eq_zero.mp h), if_pos h]
    · rw [if_neg (fun hm => h (Nat.dvd_iff_mod_eq_zero.mpr hm)), if_neg h]

/-! ### Success of the per-step feed/fetch preparation -/

theorem PrepareFeedNamesAndFeeds_ok (cfg : RunnerConfig) (loss_scaler : Option LossScaler)
    (sched : PipelineScheduler) (mode : SessionMode) (dn : List String)
    (dv : List FeedValue) (lr : Option (Nat → ℚ)) (step : Nat)
    (hEv : ∀ n ∈ eventInputNames cfg.ctx, n ≠ "" → 1 < cfg.params.pipeline_parallel_size) :
    ∃ v, PrepareFeedNamesAndFeeds cfg loss_scaler sched mode dn dv lr step = .ok v := by
  have hbind : ∀ {α β : Type} (a : α) (f : α → Except String β),
      (Except.ok a >>= f) = f a := fun _ _ => rfl
  have hb : ∀ (name : String) (ev : Bool) (schedId : Int), name ∈ eventInputNames cfg.ctx →
      eventFeedBlock cfg.params.pipeline_parallel_size name ev schedId =
        .ok (if name = "" then []
             else [(name, FeedValue.scalarI (if ev then -1 else schedId))]) :=
    fun name ev schedId hm => eventFeedBlock_ok _ _ _ _ (hEv name hm)
  unfold PrepareFeedNamesAndFeeds
  simp only [
    hb _ _ _ (show cfg.ctx.forward_waited_event_name ∈ _ by simp [eventInputNames]),
    hb _ _ _ (show cfg.ctx.forward_waited_event_after_recv_name ∈ _ by simp [eventInputNames]),
    hb _ _ _ (show cfg.ctx.forward_recorded_event_before_send_name ∈ _ by simp [eventInputNames]),
    hb _ _ _ (show cfg.ctx.forward_recorded_event_name ∈ _ by simp [eventInputNames]),
    hb _ _ _ (show cfg.ctx.backward_waited_event_name ∈ _ by simp [eventInputNames]),
    hb _ _ _ (show cfg.ctx.backward_waited_event_after_recv_name ∈ _ by simp [eventInputNames]),
    hb _ _ _ (show cfg.ctx.backward_recorded_event_before_send_name ∈ _ by simp [eventInputNames]),
    hb _ _ _ (show cfg.ctx.backward_recorded_event_name ∈ _ by simp [eventInputNames]),
    hbind]
  exact ⟨_, rfl⟩

theorem PrepareFetchNamesAndFetches_ok (cfg : RunnerConfig) (mode : SessionMode)
    (hWF : WellFormed cfg) :
    ∃ l, PrepareFetchNamesAndFetches cfg mode = .ok l := by
  have hbind : ∀ {α β : Type} (a : α) (f : α → Except String β),
      (Except.ok a >>= f) = f a := fun _ _ => rfl
  obtain ⟨-, hacc, hmp⟩ := hWF
  unfold PrepareFetchNamesAndFetches PrepareFetchNamesCore
  cases mode with
  | ModelUpdateStep =>
    by_cases hp : 1 < cfg.params.pipeline_parallel_size
    · simp only [if_pos hp, hbind]; exact ⟨_, rfl⟩
    · by_cases hmix : cfg.params.use_mixed_precision
      · obtain ⟨hgaf, hdelta⟩ := hmp hp hmix
        obtain ⟨gaf, hgaf⟩ := Option.isSome_iff_exists.mp hgaf
        by_cases hada : cfg.params.use_adasum
        · obtain ⟨daf, hdaf⟩ := Option.isSome_iff_exists.mp (hdelta hada)
          simp only [if_neg hp, if_pos hmix, hgaf, if_pos hada, hdaf, hbind]
          exact ⟨_, rfl⟩
        · simp only [if_neg hp, if_pos hmix, hgaf, if_neg hada, hbind]
          exact ⟨_, rfl⟩
      · simp only [if_neg hp, if_neg hmix, hbind]
        exact ⟨_, rfl⟩
  | GradientAccumulateStep =>
    by_cases hA : 1 < cfg.params.gradient_accumulation_steps
    · obtain ⟨g, hg⟩ := Option.isSome_iff_exists.mp (hacc hA)
      simp only [if_pos hA, hg, hbind]
      exact ⟨_, rfl⟩
    · simp only [if_neg hA, hbind]
      exact ⟨_, rfl⟩
  | EvaluateStep =>
    by_cases hp : 1 < cfg.params.pipeline_parallel_size
    · simp only [if_pos hp, hbind]; exact ⟨_, rfl⟩
    · simp only [if_neg hp, hbind]; exact ⟨_, rfl⟩

theorem PrepareFetchNames_eval_ok (cfg : RunnerConfig) :
    ∃ l, PrepareFetchNamesAndFetches cfg .EvaluateStep = .ok l := by
  have hbind : ∀ {α β : Type} (a : α) (f : α → Except String β),
      (Except.ok a >>= f) = f a := fun _ _ => rfl
  unfold PrepareFetchNamesAndFetches PrepareFetchNamesCore
  by_cases hp : 1 < cfg.params.pipeline_parallel_size
  · simp only [if_pos hp, hbind]; exact ⟨_, rfl⟩
  · simp only [if_neg hp, hbind]; exact ⟨_, rfl⟩

/-! ### Evaluate preserves the training counters (C1, C6) -/

theorem evaluateLoop_spec (cfg : RunnerConfig) (sched : PipelineScheduler) (tl : TestLoader)
    (hEv : ∀ n ∈ eventInputNames cfg.ctx, n ≠ "" → 1 < cfg.params.pipeline_parallel_size) :
    ∀ (n batch_idx : Nat) (st : LoopState), ∃ st',
      evaluateLoop cfg sched tl n batch_idx st = .ok st' ∧
      st'.step_ = st.step_ ∧
      st'.weight_update_step_count_ = st.weight_update_step_count_ ∧
      st'.trace = st.trace ∧
      st'.loss_scaler_ = st.loss_scaler_ ∧
      st'.loaderShards = st.loaderShards ∧
      st'.loaderIndex = st.loaderIndex ∧
      st'.training_data_set_index_ = st.training_data_set_index_ ∧
      st'.gradient_accumulation_step_count = st.gradient_accumulation_step_count ∧
      (PoolInv st.poolTrace → PoolInv st'.poolTrace) ∧
      (∀ b ∈ st'.evalCallbacks, b ∈ st.evalCallbacks ∨ b = evalFired cfg) := by
  have hbind : ∀ {α β : Type} (a : α) (f : α → Except String β),
      (Except.ok a >>= f) = f a := fun _ _ => rfl
  intro n
  induction n with
  | zero =>
    intro batch_idx st
    exact ⟨st, rfl, rfl, rfl, rfl, rfl, rfl, rfl, rfl, rfl, fun h => h,
      fun b hb => Or.inl hb⟩
  | succ n ih =>
    intro batch_idx st
    obtain ⟨v, hv⟩ := PrepareFeedNamesAndFeeds_ok cfg st.loss_scaler_ sched .EvaluateStep
      tl.dataNames (tl.getBatch batch_idx) none st.step_ hEv
    obtain ⟨l, hl⟩ := PrepareFetchNames_eval_ok cfg
    unfold evaluateLoop
    simp only [hv, hl, hbind]
    by_cases hc : st.testShards.headD 0 ≤ st.testCursor + 1
    · simp only [if_pos hc]
      obtain ⟨st', h1, hstep, hwu, htr, hsc, hlsh, hlidx, htdsi, hgac, hpool, hcb⟩ :=
        ih (batch_idx + 1) _
      refine ⟨st', h1, hstep, hwu, htr, hsc, hlsh, hlidx, htdsi, hgac, ?_, ?_⟩
      · intro hp
        apply hpool
        show PoolInv (st.poolTrace ++
          (if cfg.params.pipeline_parallel_size = 1 then
            [PoolEvent.join 0, .dispatch 0, .join 0] else []))
        by_cases hpps : cfg.params.pipeline_parallel_size = 1
        · rw [if_pos hpps]; exact PoolInv_append hp poolBlock_eval
        · rw [if_neg hpps, List.append_nil]; exact hp
      · intro b hb
        rcases hcb b hb with hmem | heq
        · rcases List.mem_append.mp hmem with hmem' | hmem'
          · exact Or.inl hmem'
          · exact Or.inr (by simpa using hmem')
        · exact Or.inr heq
    · simp only [if_neg hc]
      obtain ⟨st', h1, hstep, hwu, htr, hsc, hlsh, hlidx, htdsi, hgac, hpool, hcb⟩ :=
        ih (batch_idx + 1) _
      refine ⟨st', h1, hstep, hwu, htr, hsc, hlsh, hlidx, htdsi, hgac, ?_, ?_⟩
      · intro hp
        apply hpool
        show PoolInv (st.poolTrace ++
          (if cfg.params.pipeline_parallel_size = 1 then
            [PoolEvent.join 0, .dispatch 0, .join 0] else []))
        by_cases hpps : cfg.params.pipeline_parallel_size = 1
        · rw [if_pos hpps]; exact PoolInv_append hp poolBlock_eval
        · rw [if_neg hpps, List.append_nil]; exact hp
      · intro b hb
        rcases hcb b hb with hmem | heq
        · rcases List.mem_append.mp hmem with hmem' | hmem'
          · exact Or.inl hmem'
          · exact Or.inr (by simpa using hmem')
        · exact Or.inr heq

theorem Evaluate_spec (cfg : RunnerConfig) (sched : PipelineScheduler) (tl : TestLoader)
    (st : LoopState)
    (hEv : ∀ n ∈ eventInputNames cfg.ctx, n ≠ "" → 1 < cfg.params.pipeline_parallel_size) :
    ∃ st', Evaluate cfg sched tl st = .ok st' ∧
      st'.step_ = st.step_ ∧
      st'.weight_update_step_count_ = st.weight_update_step_count_ ∧
      st'.trace = st.trace ∧
      st'.loss_scaler_ = st.loss_scaler_ ∧
      st'.loaderShards = st.loaderShards ∧
      st'.loaderIndex = st.loaderIndex ∧
      st'.training_data_set_index_ = st.training_data_set_index_ ∧
      st'.gradient_accumulation_step_count = st.gradient_accumulation_step_count ∧
      (PoolInv st.poolTrace → PoolInv st'.poolTrace) ∧
      (∀ b ∈ st'.evalCallbacks, b ∈ st.evalCallbacks ∨ b = evalFired cfg) := by
  unfold Evaluate
  by_cases hs : cfg.params.skip_evaluation
  · rw [if_pos hs]
    exact ⟨st, rfl, rfl, rfl, rfl, rfl, rfl, rfl, rfl, rfl, fun h => h,
      fun b hb => Or.inl hb⟩
  · rw [if_neg hs]
    exact evaluateLoop_spec cfg sched tl hEv (evalNumBatches cfg.params) 0 st

theorem maybeEvaluate_spec (I : LoopInputs) (st : LoopState)
    (hEv : ∀ n ∈ eventInputNames I.cfg.ctx, n ≠ "" → 1 < I.cfg.params.pipeline_parallel_size) :
    ∃ st', maybeEvaluate I st = .ok st' ∧
      st'.step_ = st.step_ ∧
      st'.weight_update_step_count_ = st.weight_update_step_count_ ∧
      st'.trace = st.trace ∧
      st'.loaderShards = st.loaderShards ∧
      st'.loaderIndex = st.loaderIndex ∧
      st'.training_data_set_index_ = st.training_data_set_index_ ∧
      (PoolInv st.poolTrace → PoolInv st'.poolTrace) := by
  unfold maybeEvaluate
  cases I.testLoader with
  | none => exact ⟨st, rfl, rfl, rfl, rfl, rfl, rfl, rfl, fun h => h⟩
  | some tl =>
    by_cases hc : I.cfg.params.do_eval ∧ st.step_ % I.cfg.params.evaluation_period = 0
    · simp only [if_pos hc]
      obtain ⟨st', h1, hstep, hwu, htr, _, hlsh, hlidx, htdsi, _, hpool, _⟩ :=
        Evaluate_spec I.cfg I.sched tl st hEv
      exact ⟨st', h1, hstep, hwu, htr, hlsh, hlidx, htdsi, hpool⟩
    · simp only [if_neg hc]
      exact ⟨st, rfl, rfl, rfl, rfl, rfl, rfl, rfl, fun h => h⟩

/-! ### One batch of the training loop -/

theorem runOneBatch_spec (I : LoopInputs) (hWF : WellFormed I.cfg) (batch : Nat)
    (st : LoopState) :
    ∃ st' fns fired, runOneBatch I batch st = .ok st' ∧
      st'.step_ = st.step_ + 1 ∧
      st'.weight_update_step_count_ = st.weight_update_step_count_ +
        (if (st.step_ + 1) % I.cfg.params.gradient_accumulation_steps = 0 then 1 else 0) ∧
      st'.trace = st.trace ++ [⟨st.step_,
        decide ((st.step_ + 1) % I.cfg.params.gradient_accumulation_steps = 0), fns, fired⟩] ∧
      st'.loaderShards = st.loaderShards ∧
      st'.loaderIndex = st.loaderIndex ∧
      st'.training_data_set_index_ = st.training_data_set_index_ ∧
      (PoolInv st.poolTrace → PoolInv st'.poolTrace) := by
  have hbind : ∀ {α β : Type} (a : α) (f : α → Except String β),
      (Except.ok a >>= f) = f a := fun _ _ => rfl
  unfold runOneBatch
  by_cases hup : (st.step_ + 1) % I.cfg.params.gradient_accumulation_steps = 0
  · obtain ⟨v, hv⟩ := PrepareFeedNamesAndFeeds_ok I.cfg st.loss_scaler_ I.sched .ModelUpdateStep
      I.dataNames (I.getBatch st.training_data_set_index_ batch) (some I.lrFn) st.step_ hWF.1
    obtain ⟨l, hl⟩ := PrepareFetchNamesAndFetches_ok I.cfg .ModelUpdateStep hWF
    simp only [if_pos hup, hv, hl, hbind]
    obtain ⟨st', h1, hstep, hwu, htr, hlsh, hlidx, htdsi, hpool⟩ :=
      maybeEvaluate_spec I (RunWithUpdate I.cfg (I.allFinite st.step_) st l) hWF.1
    refine ⟨st', l,
      decide ((I.cfg.params.pipeline_parallel_size = 1 ∨
          I.cfg.ctx.pipeline_stage_id = I.cfg.params.pipeline_parallel_size - 1) ∧
        I.cfg.params.is_perf_test = false ∧
        st.weight_update_step_count_ % I.cfg.params.display_loss_steps = 0) &&
        I.cfg.params.error_function_present,
      h1, ?_, ?_, ?_, hlsh, hlidx, htdsi, ?_⟩
    · rw [hstep]; rfl
    · rw [hwu]; rfl
    · rw [htr]
      show st.trace ++ [⟨st.step_, true, l, _⟩] = st.trace ++ [⟨st.step_, decide _, l, _⟩]
      rw [decide_eq_true_eq.mpr hup]
    · intro hp
      exact hpool (PoolInv_append hp (poolBlock_sync _))
  · obtain ⟨v, hv⟩ := PrepareFeedNamesAndFeeds_ok I.cfg st.loss_scaler_ I.sched
      .GradientAccumulateStep
      I.dataNames (I.getBatch st.training_data_set_index_ batch) (some I.lrFn) st.step_ hWF.1
    obtain ⟨l, hl⟩ := PrepareFetchNamesAndFetches_ok I.cfg .GradientAccumulateStep hWF
    simp only [if_neg hup, hv, hl, hbind]
    obtain ⟨st', h1, hstep, hwu, htr, hlsh, hlidx, htdsi, hpool⟩ :=
      maybeEvaluate_spec I (RunWithoutUpdate I.cfg st l) hWF.1
    refine ⟨st', l, false, h1, ?_, ?_, ?_, hlsh, hlidx, htdsi, ?_⟩
    · rw [hstep]; rfl
    · rw [hwu]; rfl
    · rw [htr]
      show st.trace ++ [⟨st.step_, false, l, false⟩] = st.trace ++ [⟨st.step_, decide _, l, false⟩]
      rw [decide_eq_false_iff_not.mpr hup]
    · intro hp
      exact hpool (PoolInv_append hp (poolBlock_async _))

/-! ### The batch loop over one shard -/

theorem runBatchLoop_spec (I : LoopInputs) (hWF : WellFormed I.cfg) :
    ∀ (n batch : Nat) (st : LoopState),
      st.step_ ≤ I.cfg.params.num_train_steps →
      ∃ st', runBatchLoop I n batch st = .ok st' ∧
        st'.step_ = min I.cfg.params.num_train_steps (st.step_ + n) ∧
        st'.weight_update_step_count_ = st.weight_update_step_count_ +
          countWU I.cfg.params.gradient_accumulation_steps st.step_
            (min I.cfg.params.num_train_steps (st.step_ + n)) ∧
        st'.loaderShards = st.loaderShards ∧
        st'.loaderIndex = st.loaderIndex ∧
        (TraceInv I.cfg.params.gradient_accumulation_steps st →
          TraceInv I.cfg.params.gradient_accumulation_steps st') ∧
        (PoolInv st.poolTrace → PoolInv st'.poolTrace) := by
  have hbind : ∀ {α β : Type} (a : α) (f : α → Except String β),
      (Except.ok a >>= f) = f a := fun _ _ => rfl
  intro n
  induction n with
  | zero =>
    intro batch st hle
    exact ⟨st, rfl, by omega, by rw [show min I.cfg.params.num_train_steps (st.step_ + 0)
      = st.step_ by omega, countWU_self]; omega, rfl, rfl, fun h => h, fun h => h⟩

  | succ n ih =>
    intro batch st hle
    unfold runBatchLoop
    by_cases hlt : st.step_ < I.cfg.params.num_train_steps
    · simp only [if_pos hlt]
      obtain ⟨st1, fns, fired, h1, hstep1, hwu1, htr1, hlsh1, hlidx1, htdsi1, hpool1⟩ :=
        runOneBatch_spec I hWF batch st
      simp only [h1, hbind]
      obtain ⟨st', h2, hstep2, hwu2, hlsh2, hlidx2, htrp2, hpool2⟩ :=
        ih (batch + 1) st1 (by omega)
      refine ⟨st', h2, ?_, ?_, by rw [hlsh2, hlsh1], by rw [hlidx2, hlidx1], ?_, ?_⟩
      · rw [hstep2, hstep1]
        omega
      · rw [hwu2, hwu1, hstep1]
        have hm : st.step_ + 1 ≤
            min I.cfg.params.num_train_steps (st.step_ + 1 + n) := by omega
        rw [← countWU_succ, Nat.add_assoc,
          countWU_add _ (Nat.le_succ st.step_) hm]
        congr 2
        omega
      · intro ht
        apply htrp2
        intro r hr
        rw [htr1] at hr
        rcases List.mem_append.mp hr with h | h
        · exact ht r h
        · rw [List.mem_singleton.mp h]
      · exact fun hp => hpool2 (hpool1 hp)
    · simp only [if_neg hlt]
      refine ⟨st, rfl, by omega, ?_, rfl, rfl, fun h => h, fun h => h⟩
      rw [show min I.cfg.params.num_train_steps (st.step_ + (n + 1)) = st.step_ by omega,
        countWU_self]
      omega

theorem runBatchLoop_ok (I : LoopInputs) (hWF : WellFormed I.cfg) :
    ∀ (n batch : Nat) (st : LoopState),
      ∃ st', runBatchLoop I n batch st = .ok st' ∧
        st'.loaderShards = st.loaderShards ∧
        st'.loaderIndex = st.loaderIndex ∧
        (PoolInv st.poolTrace → PoolInv st'.poolTrace) := by
  have hbind : ∀ {α β : Type} (a : α) (f : α → Except String β),
      (Except.ok a >>= f) = f a := fun _ _ => rfl
  intro n
  induction n with
  | zero => exact fun batch st => ⟨st, rfl, rfl, rfl, fun h => h⟩
  | succ n ih =>
    intro batch st
    unfold runBatchLoop
    by_cases hlt : st.step_ < I.cfg.params.num_train_steps
    · simp only [if_pos hlt]
      obtain ⟨st1, fns, fired, h1, _, _, _, hlsh1, hlidx1, _, hpool1⟩ :=
        runOneBatch_spec I hWF batch st
      simp only [h1, hbind]
      obtain ⟨st', h2, hlsh2, hlidx2, hpool2⟩ := ih (batch + 1) st1
      exact ⟨st', h2, by rw [hlsh2, hlsh1], by rw [hlidx2, hlidx1],
        fun hp => hpool2 (hpool1 hp)⟩
    · simp only [if_neg hlt]
      exact ⟨st, rfl, rfl, rfl, fun h => h⟩

/-! ### The shard loop -/

theorem runShardIters_cons_none (I : LoopInputs) (k : Nat) (st : LoopState)
    (tail : List (Option Nat)) (h : st.loaderShards = none :: tail) :
    runShardIters I (k + 1) st = runShardIters I k
      { st with training_data_set_index_ := st.loaderIndex,
                loaderShards := rotate1 st.loaderShards,
                loaderIndex := (st.loaderIndex + 1) % st.loaderShards.length } := by
  obtain ⟨s1, s2, s3, s4, s5, sc, ls, li, ts, tc, tr, pt, ec⟩ := st
  cases h
  rfl

theorem runShardIters_cons_some (I : LoopInputs) (k : Nat) (st : LoopState)
    (b : Nat) (tail : List (Option Nat)) (h : st.loaderShards = some b :: tail) :
    runShardIters I (k + 1) st = (do
      let st1 ← runBatchLoop I b 0 { st with training_data_set_index_ := st.loaderIndex }
      let st2 := { st1 with poolTrace := st1.poolTrace ++ [PoolEvent.joinAll] }
      if st2.step_ < I.cfg.params.num_train_steps then
        runShardIters I k
          { st2 with loaderShards := rotate1 st2.loaderShards,
                     loaderIndex := (st2.loaderIndex + 1) % st2.loaderShards.length }
      else runShardIters I k st2) := by
  obtain ⟨s1, s2, s3, s4, s5, sc, ls, li, ts, tc, tr, pt, ec⟩ := st
  cases h
  rfl

theorem runShardIters_spec (I : LoopInputs) (hWF : WellFormed I.cfg) :
    ∀ (k : Nat) (st : LoopState),
      k ≤ st.loaderShards.length →
      st.step_ ≤ I.cfg.params.num_train_steps →
      ∃ st', runShardIters I k st = .ok st' ∧
        st'.step_ = min I.cfg.params.num_train_steps
          (st.step_ + shardsTotalBatches (st.loaderShards.take k)) ∧
        st'.weight_update_step_count_ = st.weight_update_step_count_ +
          countWU I.cfg.params.gradient_accumulation_steps st.step_
            (min I.cfg.params.num_train_steps
              (st.step_ + shardsTotalBatches (st.loaderShards.take k))) ∧
        (TraceInv I.cfg.params.gradient_accumulation_steps st →
          TraceInv I.cfg.params.gradient_accumulation_steps st') ∧
        (PoolInv st.poolTrace → PoolInv st'.poolTrace) := by
  have hbind : ∀ {α β : Type} (a : α) (f : α → Except String β),
      (Except.ok a >>= f) = f a := fun _ _ => rfl
  intro k
  induction k with
  | zero =>
    intro st hk hle
    refine ⟨st, rfl, ?_, ?_, fun h => h, fun h => h⟩
    · simp [shardsTotalBatches]
      omega
    · rw [show min I.cfg.params.num_train_steps
        (st.step_ + shardsTotalBatches (st.loaderShards.take 0)) = st.step_ by
          simp [shardsTotalBatches]; omega, countWU_self]
      omega
  | succ k ih =>
    intro st hk hle
    rcases hls : st.loaderShards with _ | ⟨o, tail⟩
    · rw [hls] at hk
      simp at hk
    · have hlen : st.loaderShards.length = tail.length + 1 := by rw [hls]; rfl
      cases o with
      | none =>
        rw [runShardIters_cons_none I k st tail hls]
        have hrot : rotate1 st.loaderShards = tail ++ [none] := by rw [hls]; rfl
        obtain ⟨st', h, hstep, hwu, htr, hpool⟩ := ih
          { st with training_data_set_index_ := st.loaderIndex,
                    loaderShards := rotate1 st.loaderShards,
                    loaderIndex := (st.loaderIndex + 1) % st.loaderShards.length }
          (by show k ≤ (rotate1 st.loaderShards).length
              rw [hrot]; simp; omega)
          (by show st.step_ ≤ _; exact hle)
        have hS : shardsTotalBatches ((rotate1 st.loaderShards).take k) =
            shardsTotalBatches (st.loaderShards.take (k + 1)) := by
          rw [hrot, hls, List.take_append_of_le_length (by omega), List.take_succ_cons]
          simp [shardsTotalBatches]
        refine ⟨st', h, ?_, ?_, htr, hpool⟩
        · rw [hstep]
          show min _ (st.step_ + _) = _
          rw [hS, hls]
        · rw [hwu]
          show st.weight_update_step_count_ + countWU _ st.step_ (min _ (st.step_ + _)) = _
          rw [hS, hls]
      | some b =>
        rw [runShardIters_cons_some I k st b tail hls]
        obtain ⟨st2, h2, hstep2, hwu2, hlsh2, hlidx2, htrp2, hpool2⟩ :=
          runBatchLoop_spec I hWF b 0
            { st with training_data_set_index_ := st.loaderIndex } hle
        have hlsh2' : st2.loaderShards = st.loaderShards := hlsh2
        have hstep2' : st2.step_ = min I.cfg.params.num_train_steps (st.step_ + b) := hstep2
        have hwu2' : st2.weight_update_step_count_ = st.weight_update_step_count_ +
            countWU I.cfg.params.gradient_accumulation_steps st.step_
              (min I.cfg.params.num_train_steps (st.step_ + b)) := hwu2
        have hSt : shardsTotalBatches ((some b :: tail).take (k + 1)) =
            b + shardsTotalBatches (tail.take k) := by
          rw [List.take_succ_cons]
          simp [shardsTotalBatches]
        simp only [h2, hbind]
        by_cases hlt : st2.step_ < I.cfg.params.num_train_steps
        · rw [if_pos hlt]
          obtain ⟨st', h, hstep, hwu, htr, hpool⟩ := ih
            { st2 with poolTrace := st2.poolTrace ++ [PoolEvent.joinAll],
                       loaderShards := rotate1 st2.loaderShards,
                       loaderIndex := (st2.loaderIndex + 1) % st2.loaderShards.length }
            (by show k ≤ (rotate1 st2.loaderShards).length
                rw [hlsh2', hls]
                simp [rotate1]
                omega)
            (by show st2.step_ ≤ _
                omega)
          have hS : shardsTotalBatches ((rotate1 st2.loaderShards).take k) =
              shardsTotalBatches (tail.take k) := by
            rw [hlsh2', hls]
            show shardsTotalBatches ((tail ++ [some b]).take k) = _
            rw [List.take_append_of_le_length (by omega)]
          have hlt' : min I.cfg.params.num_train_steps (st.step_ + b) <
              I.cfg.params.num_train_steps := hstep2' ▸ hlt
          refine ⟨st', h, ?_, ?_, ?_, ?_⟩
          · rw [hstep]
            show min _ (st2.step_ + shardsTotalBatches
              ((rotate1 st2.loaderShards).take k)) = _
            rw [hS, hstep2', hSt]
            omega
          · rw [hwu]
            show st2.weight_update_step_count_ + countWU _ st2.step_
              (min _ (st2.step_ + shardsTotalBatches
                ((rotate1 st2.loaderShards).take k))) = _
            rw [hS, hwu2', hstep2', hSt]
            have hmin : min I.cfg.params.num_train_steps (st.step_ + b) =
                st.step_ + b := by omega
            rw [hmin, Nat.add_assoc,
              countWU_add _ (by omega : st.step_ ≤ st.step_ + b)
                (by omega : st.step_ + b ≤ min I.cfg.params.num_train_steps
                  (st.step_ + b + shardsTotalBatches (tail.take k)))]
            congr 2
            omega
          · intro ht
            exact htr (htrp2 ht)
          · intro hp
            exact hpool (PoolInv_append (hpool2 hp) poolBlock_joinAll)
        · rw [if_neg hlt]
          obtain ⟨st', h, hstep, hwu, htr, hpool⟩ := ih
            { st2 with poolTrace := st2.poolTrace ++ [PoolEvent.joinAll] }
            (by show k ≤ st2.loaderShards.length
                rw [hlsh2']
                omega)
            (by show st2.step_ ≤ _
                omega)
          refine ⟨st', h, ?_, ?_, ?_, ?_⟩
          · rw [hstep]
            show min _ (st2.step_ + shardsTotalBatches
              (st2.loaderShards.take k)) = _
            rw [hSt]
            omega
          · rw [hwu]
            show st2.weight_update_step_count_ + countWU _ st2.step_
              (min _ (st2.step_ + shardsTotalBatches
                (st2.loaderShards.take k))) = _
            have hN : st2.step_ = I.cfg.params.num_train_steps := by omega
            rw [hN]
            have hm1 : min I.cfg.params.num_train_steps
                (I.cfg.params.num_train_steps +
                  shardsTotalBatches (st2.loaderShards.take k)) =
                I.cfg.params.num_train_steps := by omega
            rw [hm1, countWU_self, Nat.add_zero, hwu2']
            have hm2 : min I.cfg.params.num_train_steps (st.step_ + b) =
                I.cfg.params.num_train_steps := by omega
            have hm3 : min I.cfg.params.num_train_steps
                (st.step_ + shardsTotalBatches ((some b :: tail).take (k + 1))) =
                I.cfg.params.num_train_steps := by rw [hSt]; omega
            rw [hm2, hm3]
          · intro ht
            exact htr (htrp2 ht)
          · intro hp
            exact hpool (PoolInv_append (hpool2 hp) poolBlock_joinAll)

theorem runShardIters_nil (I : LoopInputs) (k : Nat) (st : LoopState)
    (h : st.loaderShards = []) :
    runShardIters I (k + 1) st =
      runShardIters I k { st with training_data_set_index_ := st.loaderIndex } := by
  obtain ⟨s1, s2, s3, s4, s5, sc, ls, li, ts, tc, tr, pt, ec⟩ := st
  cases h
  rfl

theorem runShardIters_ok (I : LoopInputs) (hWF : WellFormed I.cfg) :
    ∀ (k : Nat) (st : LoopState),
      ∃ st', runShardIters I k st = .ok st' ∧
        (PoolInv st.poolTrace → PoolInv st'.poolTrace) := by
  have hbind : ∀ {α β : Type} (a : α) (f : α → Except String β),
      (Except.ok a >>= f) = f a := fun _ _ => rfl
  intro k
  induction k with
  | zero => exact fun st => ⟨st, rfl, fun h => h⟩
  | succ k ih =>
    intro st
    rcases hls : st.loaderShards with _ | ⟨o, tail⟩
    · rw [runShardIters_nil I k st hls]
      exact ih _
    · cases o with
      | none =>
        rw [runShardIters_cons_none I k st tail hls]
        exact ih _
      | some b =>
        rw [runShardIters_cons_some I k st b tail hls]
        obtain ⟨st2, h2, _, _, hpool2⟩ :=
          runBatchLoop_ok I hWF b 0 { st with training_data_set_index_ := st.loaderIndex }
        simp only [h2, hbind]
        by_cases hlt : st2.step_ < I.cfg.params.num_train_steps
        · rw [if_pos hlt]
          obtain ⟨st', h, hpool⟩ := ih
            { st2 with poolTrace := st2.poolTrace ++ [PoolEvent.joinAll],
                       loaderShards := rotate1 st2.loaderShards,
                       loaderIndex := (st2.loaderIndex + 1) % st2.loaderShards.length }
          exact ⟨st', h, fun hp => hpool (PoolInv_append (hpool2 hp) poolBlock_joinAll)⟩
        · rw [if_neg hlt]
          obtain ⟨st', h, hpool⟩ := ih
            { st2 with poolTrace := st2.poolTrace ++ [PoolEvent.joinAll] }
          exact ⟨st', h, fun hp => hpool (PoolInv_append (hpool2 hp) poolBlock_joinAll)⟩

/-! ### The epoch loop -/

theorem trainingLoopAux_stable (I : LoopInputs) :
    ∀ (fuel : Nat) (st : LoopState), ¬ st.step_ < I.cfg.params.num_train_steps →
      trainingLoopAux I fuel st = .ok st := by
  intro fuel st h
  cases fuel with
  | zero => rfl
  | succ fuel => simp [trainingLoopAux, if_neg h]

theorem trainingLoopAux_ok (I : LoopInputs) (hWF : WellFormed I.cfg) :
    ∀ (fuel : Nat) (st : LoopState),
      ∃ st', trainingLoopAux I fuel st = .ok st' ∧
        (PoolInv st.poolTrace → PoolInv st'.poolTrace) := by
  have hbind : ∀ {α β : Type} (a : α) (f : α → Except String β),
      (Except.ok a >>= f) = f a := fun _ _ => rfl
  intro fuel
  induction fuel with
  | zero => exact fun st => ⟨st, rfl, fun h => h⟩
  | succ fuel ih =>
    intro st
    unfold trainingLoopAux
    by_cases hlt : st.step_ < I.cfg.params.num_train_steps
    · rw [if_pos hlt]
      obtain ⟨st2, h2, hpool2⟩ := runShardIters_ok I hWF st.loaderShards.length st
      simp only [h2, hbind]
      obtain ⟨st', h, hpool⟩ := ih st2
      exact ⟨st', h, fun hp => hpool (hpool2 hp)⟩
    · rw [if_neg hlt]
      exact ⟨st, rfl, fun h => h⟩

/-- C1: with `step_` starting at `0`, a fresh trace, the loader at shard 0
supplying at least `num_train_steps` batches in one cyclic pass, and a
well-formed configuration, `TrainingLoop` performs exactly `num_train_steps`
steps, performs exactly `num_train_steps / gradient_accumulation_steps`
weight-update steps (the count increases by exactly that), and every recorded
step is a weight-update step exactly when
`(step_ + 1) % gradient_accumulation_steps = 0`. -/
theorem training_loop_step_counts (I : LoopInputs) (st : LoopState) (fuel : Nat)
    (hWF : WellFormed I.cfg)
    (hA : 1 ≤ I.cfg.params.gradient_accumulation_steps)
    (hdvd : I.cfg.params.num_train_steps % I.cfg.params.gradient_accumulation_steps = 0)
    (hstep : st.step_ = 0) (hidx : st.training_data_set_index_ = 0)
    (htrace : st.trace = [])
    (hbatches : I.cfg.params.num_train_steps ≤ shardsTotalBatches I.trainShards)
    (hfuel : 1 ≤ fuel) :
    ∃ st', TrainingLoop I fuel st = .ok st' ∧
      st'.step_ = I.cfg.params.num_train_steps ∧
      st'.weight_update_step_count_ = st.weight_update_step_count_ +
        I.cfg.params.num_train_steps / I.cfg.params.gradient_accumulation_steps ∧
      (∀ r ∈ st'.trace, r.isWeightUpdate =
        decide ((r.stepIndex + 1) % I.cfg.params.gradient_accumulation_steps = 0)) := by
  have hbind : ∀ {α β : Type} (a : α) (f : α → Except String β),
      (Except.ok a >>= f) = f a := fun _ _ => rfl
  unfold TrainingLoop
  rw [hidx, List.rotate_zero]
  set st1 : LoopState :=
    { st with training_data_set_index_ := 0, loaderShards := I.trainShards,
              loaderIndex := 0, testShards := I.testShards } with hst1
  by_cases hN : I.cfg.params.num_train_steps = 0
  · rw [trainingLoopAux_stable I fuel st1 (by show ¬ st.step_ < _; omega)]
    refine ⟨st1, rfl, by show st.step_ = _; omega, ?_, ?_⟩
    · show st.weight_update_step_count_ = _
      rw [hN, Nat.zero_div, Nat.add_zero]
    · show ∀ r ∈ st.trace, _
      rw [htrace]
      intro r hr
      exact absurd hr (List.not_mem_nil r)
  · obtain ⟨fuel', rfl⟩ : ∃ f, fuel = f + 1 := ⟨fuel - 1, by omega⟩
    unfold trainingLoopAux
    rw [if_pos (by show st.step_ < _; omega)]
    obtain ⟨st2, h2, hstep2, hwu2, htrp2, -⟩ :=
      runShardIters_spec I hWF st1.loaderShards.length st1 (le_refl _)
        (by show st.step_ ≤ _; omega)
    have hst2 : st2.step_ = I.cfg.params.num_train_steps := by
      rw [hstep2, List.take_length]
      show min _ (st.step_ + shardsTotalBatches I.trainShards) = _
      omega
    simp only [h2, hbind]
    rw [trainingLoopAux_stable I fuel' st2 (by omega)]
    refine ⟨st2, rfl, hst2, ?_, ?_⟩
    · rw [hwu2, List.take_length]
      show st.weight_update_step_count_ + countWU _ st.step_
        (min _ (st.step_ + shardsTotalBatches I.trainShards)) = _
      rw [hstep, show min I.cfg.params.num_train_steps
        (0 + shardsTotalBatches I.trainShards) = I.cfg.params.num_train_steps by omega,
        countWU_zero_eq_div _ hA]
    · exact htrp2 (by
        show ∀ r ∈ st.trace, _
        rw [htrace]
        intro r hr
        exact absurd hr (List.not_mem_nil r))

/-- C1 witness: the concrete run `num_train_steps = 4`,
`gradient_accumulation_steps = 2`, one shard of 4 batches. -/
theorem training_loop_step_counts_witness :
    ∃ st', TrainingLoop I4 1 st0 = .ok st' ∧
      st'.step_ = I4.cfg.params.num_train_steps ∧
      st'.weight_update_step_count_ = st0.weight_update_step_count_ +
        I4.cfg.params.num_train_steps / I4.cfg.params.gradient_accumulation_steps ∧
      (∀ r ∈ st'.trace, r.isWeightUpdate =
        decide ((r.stepIndex + 1) % I4.cfg.params.gradient_accumulation_steps = 0)) :=
  training_loop_step_counts I4 st0 1 ⟨by decide, by decide, by decide⟩ (by decide)
    (by decide) rfl rfl rfl (by decide) (by decide)

/-- C4: in the concrete run with `num_train_steps = 4`,
`gradient_accumulation_steps = 2`, a single pipeline stage and one shard of 4
batches, steps 0 and 2 accumulate fetching only the gradient-accumulation
signal, steps 1 and 3 perform the weight update of their accumulation round
fetching the user-declared outputs, and at the end
`weight_update_step_count_ = 2` and `step_ = 4`. -/
theorem end_to_end_scenario :
    (TrainingLoop I4 1 st0).map (fun st =>
      (st.step_, st.weight_update_step_count_,
       st.trace.map (fun r => (r.stepIndex, r.isWeightUpdate, r.fetchNames)))) =
    .ok (4, 2, [(0, false, ["Group_Accumulated_Gradients"]),
                (1, true, ["loss"]),
                (2, false, ["Group_Accumulated_Gradients"]),
                (3, true, ["loss"])]) := by
  rfl

/-! ### The error callback fires only where the loss is visible (C6) -/

theorem evaluateLoop_callbacks (cfg : RunnerConfig) (sched : PipelineScheduler)
    (tl : TestLoader) :
    ∀ (n batch_idx : Nat) (st st' : LoopState),
      evaluateLoop cfg sched tl n batch_idx st = .ok st' →
      ∀ b ∈ st'.evalCallbacks, b ∈ st.evalCallbacks ∨ b = evalFired cfg := by
  have hbind : ∀ {α β : Type} (a : α) (f : α → Except String β),
      (Except.ok a >>= f) = f a := fun _ _ => rfl
  intro n
  induction n with
  | zero =>
    intro batch_idx st st' heq
    cases heq
    exact fun b hb => Or.inl hb
  | succ n ih =>
    intro batch_idx st st' heq
    unfold evaluateLoop at heq
    rcases hpf : PrepareFeedNamesAndFeeds cfg st.loss_scaler_ sched .EvaluateStep
        tl.dataNames (tl.getBatch batch_idx) none st.step_ with e | v
    · rw [hpf] at heq
      exact absurd heq (by intro hh; exact Except.noConfusion hh)
    · rw [hpf] at heq
      obtain ⟨l, hl⟩ := PrepareFetchNames_eval_ok cfg
      rw [hl] at heq
      replace heq := heq
      simp only [hbind] at heq
      by_cases hc : st.testShards.headD 0 ≤ st.testCursor + 1
      · rw [if_pos hc] at heq
        intro b hb
        rcases ih (batch_idx + 1) _ st' heq b hb with hmem | hfl
        · rcases List.mem_append.mp hmem with h' | h'
          · exact Or.inl h'
          · exact Or.inr (by simpa using h')
        · exact Or.inr hfl
      · rw [if_neg hc] at heq
        intro b hb
        rcases ih (batch_idx + 1) _ st' heq b hb with hmem | hfl
        · rcases List.mem_append.mp hmem with h' | h'
          · exact Or.inl h'
          · exact Or.inr (by simpa using h')
        · exact Or.inr hfl

/-- C6: on every pipeline stage that is not the last one
(`pipeline_stage_id + 1 < pipeline_parallel_size`, i.e.
`pipeline_stage_id < pipeline_parallel_size - 1`), the user error callback is
never invoked: a weight-update step records `callbackFired = false`, and every
evaluation batch records a non-fired callback decision. -/
theorem error_callback_only_on_last_stage (cfg : RunnerConfig)
    (h : cfg.ctx.pipeline_stage_id + 1 < cfg.params.pipeline_parallel_size) :
    (∀ (all_finite : Bool) (st : LoopState) (fetch_names : List String),
      (RunWithUpdate cfg all_finite st fetch_names).trace =
        st.trace ++ [⟨st.step_, true, fetch_names, false⟩]) ∧
    (∀ (sched : PipelineScheduler) (tl : TestLoader) (st st' : LoopState),
      Evaluate cfg sched tl st = .ok st' →
      ∀ b ∈ st'.evalCallbacks, b ∈ st.evalCallbacks ∨ b = false) := by
  constructor
  · intro all_finite st fetch_names
    have hses : ¬ (cfg.params.pipeline_parallel_size = 1 ∨
        cfg.ctx.pipeline_stage_id = cfg.params.pipeline_parallel_size - 1) := by omega
    show st.trace ++ [⟨st.step_, true, fetch_names,
      decide ((cfg.params.pipeline_parallel_size = 1 ∨
          cfg.ctx.pipeline_stage_id = cfg.params.pipeline_parallel_size - 1) ∧
        cfg.params.is_perf_test = false ∧
        st.weight_update_step_count_ % cfg.params.display_loss_steps = 0) &&
      cfg.params.error_function_present⟩] = _
    rw [decide_eq_false (fun hc => hses hc.1), Bool.false_and]
  · intro sched tl st st' heq
    have hfl : evalFired cfg = false := by
      unfold evalFired
      rw [decide_eq_false (by omega :
        ¬ cfg.ctx.pipeline_stage_id = cfg.params.pipeline_parallel_size - 1),
        Bool.false_and]
    unfold Evaluate at heq
    by_cases hs : cfg.params.skip_evaluation
    · rw [if_pos hs] at heq
      cases heq
      exact fun b hb => Or.inl hb
    · rw [if_neg hs] at heq
      intro b hb
      rcases evaluateLoop_callbacks cfg sched tl _ 0 st st' heq b hb with hmem | hfl'
      · exact Or.inl hmem
      · exact Or.inr (hfl ▸ hfl')

/-- C6 witness: a two-stage configuration seen from stage 0. -/
theorem error_callback_only_on_last_stage_witness :
    (RunWithUpdate cfgC6 true st0 ["loss"]).trace =
      st0.trace ++ [⟨st0.step_, true, ["loss"], false⟩] ∧
    (∀ b ∈ ({ st0 with evalCallbacks := [false] } : LoopState).evalCallbacks,
      b ∈ st0.evalCallbacks ∨ b = false) :=
  ⟨(error_callback_only_on_last_stage cfgC6 (by decide)).1 true st0 ["loss"],
   (error_callback_only_on_last_stage cfgC6 (by decide)).2 sched0 tl0 st0
     { st0 with evalCallbacks := [false] } rfl⟩

/-! ### Worker-pool slot discipline (C8) -/

/-- C8: every dispatch (both `RunWithUpdate` and `RunWithoutUpdate`) targets
worker slot `step_ % pipeline_parallel_size`, and `Join(slot)` is performed on
that slot immediately before its feed/fetch buffers are overwritten; over any
successful `TrainingLoop` run, every buffer overwrite in the pool trace is
immediately preceded by a `Join` of the same slot, and no slot is dispatched
again before a `Join` of that slot (or a `JoinAll`) has occurred. -/
theorem worker_pool_slot_safety :
    (∀ (cfg : RunnerConfig) (all_finite : Bool) (st : LoopState) (fns : List String),
      (RunWithUpdate cfg all_finite st fns).poolTrace = st.poolTrace ++
        [.join (st.step_ % cfg.params.pipeline_parallel_size),
         .write (st.step_ % cfg.params.pipeline_parallel_size),
         .dispatch (st.step_ % cfg.params.pipeline_parallel_size),
         .joinAll, .joinAll]) ∧
    (∀ (cfg : RunnerConfig) (st : LoopState) (fns : List String),
      (RunWithoutUpdate cfg st fns).poolTrace = st.poolTrace ++
        [.join (st.step_ % cfg.params.pipeline_parallel_size),
         .write (st.step_ % cfg.params.pipeline_parallel_size),
         .dispatch (st.step_ % cfg.params.pipeline_parallel_size)]) ∧
    (∀ (I : LoopInputs) (fuel : Nat) (st st' : LoopState),
      WellFormed I.cfg → PoolInv st.poolTrace →
      TrainingLoop I fuel st = .ok st' → PoolInv st'.poolTrace) := by
  refine ⟨fun _ _ _ _ => rfl, fun _ _ _ => rfl, ?_⟩
  intro I fuel st st' hWF hinv heq
  unfold TrainingLoop at heq
  obtain ⟨st2, h2, hpool⟩ := trainingLoopAux_ok I hWF fuel
    { st with loaderShards := List.rotate I.trainShards st.training_data_set_index_,
              loaderIndex := st.training_data_set_index_,
              testShards := I.testShards }
  rw [h2] at heq
  cases heq
  exact hpool hinv

/-- C8 witness: the concrete single-stage run. -/
theorem worker_pool_slot_safety_witness :
    (RunWithUpdate cfg4 true st0 ["loss"]).poolTrace = st0.poolTrace ++
      [.join (st0.step_ % cfg4.params.pipeline_parallel_size),
       .write (st0.step_ % cfg4.params.pipeline_parallel_size),
       .dispatch (st0.step_ % cfg4.params.pipeline_parallel_size),
       .joinAll, .joinAll] ∧
    PoolInv (match TrainingLoop I4 1 st0 with
      | .ok stF => stF.poolTrace
      | .error _ => []) := by
  refine ⟨worker_pool_slot_safety.1 cfg4 true st0 ["loss"], ?_⟩
  rcases h : TrainingLoop I4 1 st0 with e | stF
  · exact ⟨fun _ => rfl, fun _ => rfl⟩
  · exact worker_pool_slot_safety.2.2 I4 1 st0 stF ⟨by decide, by decide, by decide⟩
      ⟨fun _ => rfl, fun _ => rfl⟩ h

/-! ### Failed shards are skipped, never fatal (C9) -/

/-- C9: when the current training shard fails to load, the shard iteration
records the loader position, advances the loader to the next shard, and simply
continues with the remaining iterations — no error is produced and no counter
changes; moreover, under a well-formed configuration `TrainingLoop` always
returns successfully, whatever shards fail to load. -/
theorem shard_load_failure_skipped :
    (∀ (I : LoopInputs) (k : Nat) (st : LoopState) (tail : List (Option Nat)),
      st.loaderShards = none :: tail →
      runShardIters I (k + 1) st = runShardIters I k
        { st with training_data_set_index_ := st.loaderIndex,
                  loaderShards := rotate1 st.loaderShards,
                  loaderIndex := (st.loaderIndex + 1) % st.loaderShards.length }) ∧
    (∀ (I : LoopInputs) (fuel : Nat) (st : LoopState), WellFormed I.cfg →
      ∃ st', TrainingLoop I fuel st = .ok st') := by
  refine ⟨fun I k st tail hls => runShardIters_cons_none I k st tail hls, ?_⟩
  intro I fuel st hWF
  unfold TrainingLoop
  obtain ⟨st', h, -⟩ := trainingLoopAux_ok I hWF fuel _
  exact ⟨st', h⟩

/-- C9 witness: a loader whose current shard failed to load. -/
theorem shard_load_failure_skipped_witness :
    runShardIters I4 1 stC9 = runShardIters I4 0
      { stC9 with training_data_set_index_ := stC9.loaderIndex,
                  loaderShards := rotate1 stC9.loaderShards,
                  loaderIndex := (stC9.loaderIndex + 1) % stC9.loaderShards.length } ∧
    ∃ st', TrainingLoop I4 1 st0 = .ok st' :=
  ⟨shard_load_failure_skipped.1 I4 0 stC9 [some 1] rfl,
   shard_load_failure_skipped.2 I4 1 st0 ⟨by decide, by decide, by decide⟩⟩

/-- C3 witness: a single-stage evaluation feed construction with a dynamic
loss scaler. -/
theorem evaluate_feeds_spec_witness :
    PrepareFeedNamesAndFeeds cfg4 (some scaler1) sched0 .EvaluateStep
      ["input1"] [.tensor 0] none 0 =
    .ok (dataFeedsPart cfg4 ["input1"] [.tensor 0] ++
         lossScaleEvalFeed cfg4 (some scaler1) ++
         lrFeedPart cfg4 none 0 ++ sentinelEventFeeds cfg4.ctx) :=
  evaluate_feeds_spec cfg4 (some scaler1) sched0 ["input1"] [.tensor 0] none 0 (by decide)

/-- C5 witness: the concrete configuration with
`gradient_accumulation_steps = 2`. -/
theorem accumulate_fetch_names_spec_witness :
    PrepareFetchNamesAndFetches cfg4 .GradientAccumulateStep =
      .ok (if accumulateFetchNames cfg4 "Group_Accumulated_Gradients" = []
           then cfg4.ctx.fetch_names
           else accumulateFetchNames cfg4 "Group_Accumulated_Gradients") :=
  accumulate_fetch_names_spec cfg4 "Group_Accumulated_Gradients" (by decide) rfl

/-- C7 witness: a parameter set violating divisibility fails; the scenario's
parameter set passes all checks. -/
theorem constructor_checks_spec_witness :
    (∃ e, TrainingRunnerConstructorChecks
      { params4 with num_train_steps := 5 } = .error e) ∧
    TrainingRunnerConstructorChecks params4 = .ok () :=
  ⟨(constructor_checks_spec { params4 with num_train_steps := 5 }).1 (by decide),
   (constructor_checks_spec params4).2.2 (by decide) (by decide) (Or.inl rfl) (by decide)
     (fun hz => absurd rfl hz)⟩

/-- C10 witness: a two-stage evaluation whose user fetches all live on the
other stage, so the allowed fetch list is returned. -/
theorem fetch_fallback_spec_witness :
    (PrepareFetchNamesCore cfgC10 .EvaluateStep = .ok [] →
      ["stage0_out"] = cfgC10.ctx.fetch_names) ∧
    ((["stage0_out"] : List String) = [] ↔
      PrepareFetchNamesCore cfgC10 .EvaluateStep = .ok [] ∧
      cfgC10.ctx.fetch_names = []) :=
  fetch_fallback_spec cfgC10 .EvaluateStep ["stage0_out"] rfl

end TrainingRunnerModel
